import Mathlib

/-!
Verification of the refsw2 CORE rasterizer (nullDC) against its specification.

The definitions below are shallow embeddings of the C++ sources:
  - `pvr_mem.h`        : VRAM constants, `pvr_map32`, `pvr_write_area1_16/32`, `vri`
  - `refsw_lists.cc`   : `RenderCORE`, `ReadRegionArrayEntry`, `RenderObjectList`,
                         `RenderTriangleStrip`, `CoreTagFromDesc`, the framebuffer
                         writeback (Bayer dither / 565 and 8888 packing)
  - `TexUtils.cc`      : `twiddle_slow`, the `detwiddle` tables, the bump-map tables
  - `TexUtils.h`       : `ARGB4444_32`
  - `pvr_regs.h`       : register offsets and bit-field layouts
  - `refsw_lists_regtypes.h`, `core_structs.h` : display-list bit-field layouts

Machine integers are modeled as `Nat`; C bit-field reads and writes are modeled
by the corresponding division/remainder arithmetic at the offsets declared in
the headers.  VRAM is a total byte map `Nat → Nat`; stores reduce their data
modulo 256 exactly as a store through `uint8_t` does, and reads reduce modulo
256 to express that the C byte array only ever holds byte values.  The per-tile
rasterizer state (`refsw_tile.h`, which is only declared, not part of the
sources at hand) is abstracted behind a `TileBackend` structure whose
operations are opaque state transformers; the control flow that invokes them is
taken literally from `RenderCORE` in `refsw_lists.cc`.
-/

/-! ### VRAM address mapping (`pvr_mem.h`) -/

/-- The VRAM byte size, 8 MiB (`VRAM_SIZE`). -/
def VRAM_SIZE : Nat := 8 * 1024 * 1024

/-- `VRAM_MASK = VRAM_SIZE - 1`. -/
def VRAM_MASK : Nat := VRAM_SIZE - 1

/-- `VRAM_BANK_BIT = 0x400000`. -/
def VRAM_BANK_BIT : Nat := 0x400000

/-- `pvr_map32` from `pvr_mem.h`, literally: `static_bits` keeps the low two
bits, `offset_bits` selects bits 2..21 (in C, `~3` is the 32-bit complement
`0xFFFFFFFC`), the middle span is doubled and the bank bit becomes a 4-byte
selector.  No intermediate value overflows `uint32_t`, so plain `Nat`
arithmetic coincides with the C computation. -/
def pvr_map32 (offset32 : Nat) : Nat :=
  let static_bits : Nat := (VRAM_MASK - (VRAM_BANK_BIT * 2 - 1)) ||| 3
  let offset_bits : Nat := (VRAM_BANK_BIT - 1) &&& 0xFFFFFFFC
  let bank : Nat := (offset32 &&& VRAM_BANK_BIT) / VRAM_BANK_BIT
  let rv : Nat := offset32 &&& static_bits
  let rv : Nat := rv ||| (offset32 &&& offset_bits) * 2
  let rv : Nat := rv ||| bank * 4
  rv

/-- VRAM modeled as a total byte map.  The C array is `uint8_t[8 MiB]`; the
theorems below track which indices a store touches. -/
def Vram : Type := Nat → Nat

/-- A single byte store (`uint8_t` assignment truncates to 8 bits). -/
def writeByte (vram : Vram) (a v : Nat) : Vram :=
  fun b => if b = a then v % 256 else vram b

/-- `pvr_write_area1_16` from `pvr_mem.h`: a little-endian `uint16_t` store at
byte offset `pvr_map32 addr`.  The source also computes
`vaddr = addr & VRAM_MASK` but never uses it; the store goes through
`pvr_map32(addr)` directly. -/
def pvr_write_area1_16 (vram : Vram) (addr data : Nat) : Vram :=
  let m := pvr_map32 addr
  writeByte (writeByte vram m data) (m + 1) (data / 256)

/-- `pvr_write_area1_32` from `pvr_mem.h`: a little-endian `uint32_t` store at
byte offset `pvr_map32 addr`. -/
def pvr_write_area1_32 (vram : Vram) (addr data : Nat) : Vram :=
  let m := pvr_map32 addr
  writeByte (writeByte (writeByte (writeByte vram m data)
    (m + 1) (data / 256)) (m + 2) (data / 65536)) (m + 3) (data / 16777216)

/-- `vri` from `pvr_mem.h`: little-endian `uint32_t` read at byte offset
`pvr_map32 addr`. -/
def vri (vram : Vram) (addr : Nat) : Nat :=
  vram (pvr_map32 addr) % 256 +
  vram (pvr_map32 addr + 1) % 256 * 256 +
  vram (pvr_map32 addr + 2) % 256 * 65536 +
  vram (pvr_map32 addr + 3) % 256 * 16777216

/-! ### Texture pixel unpacking (`TexUtils.h`) -/

/-- `ARGB4444_32` from `dreamcast/ffi/refsw2/TexUtils.h`, literally:
each 4-bit field of the 16-bit texel is shifted into place in the 32-bit
output word. -/
def ARGB4444_32 (word : Nat) : Nat :=
  (word >>> 12 &&& 0xF) <<< 28 ||| (word >>> 0 &&& 0xF) <<< 4 |||
  (word >>> 4 &&& 0xF) <<< 12 ||| (word >>> 8 &&& 0xF) <<< 20

/-! ### Framebuffer 565 packing with Bayer dither (`RenderCORE` writeback) -/

/-- The `bayerBias` matrix from the writeback block of `RenderCORE`
(`refsw_lists.cc`), indexed `[y & 3][x & 3]`; out-of-range indices (which the
code never produces) default to 0. -/
def bayerBias (r c : Nat) : Nat :=
  (([[8, 136, 40, 168], [200, 72, 232, 104],
     [56, 184, 24, 152], [248, 120, 216, 88]].getD r []).getD c 0)

/-- The RGB565 pixel pack of the `fb_packmode == 1` writeback branch of
`RenderCORE`: dithered integer quantization followed by a clamp and the
`r | g << 5 | b << 11` pack.  The `< 0` halves of the source clamps can never
fire (the C `int` values are sums of nonnegative terms), so only the upper
clamps are modeled. -/
def pack565 (x y r8 g8 b8 : Nat) : Nat :=
  let T := bayerBias (y &&& 3) (x &&& 3)
  let r5 := (r8 * 31 + T) / 255
  let g6 := (g8 * 63 + T) / 255
  let b5 := (b8 * 31 + T) / 255
  let r5 := if 31 < r5 then 31 else r5
  let g6 := if 63 < g6 then 63 else g6
  let b5 := if 31 < b5 then 31 else b5
  r5 ||| g6 <<< 5 ||| b5 <<< 11

/-- The ARGB8888 pixel pack of the `fb_packmode == 6` writeback branch:
`src[0] + src[1]*256 + src[2]*65536 + src[3]*16777216`. -/
def pack8888 (b0 b1 b2 b3 : Nat) : Nat :=
  b0 + b1 * 256 + b2 * 65536 + b3 * 16777216

/-! ### Twiddle tables (`TexUtils.cc`) -/

/-- The loop of `twiddle_slow` after the initial halving of both sizes: one
step handles the `if (y_sz)` bit take, then the `if (x_sz)` bit take, then
recurses; `rv |= temp << sh` is the bitwise or of the source.  When a size is
zero it stays zero, so halving it unconditionally is identical to the C code.
-/
def twLoop (x y xsz ysz sh : Nat) : Nat :=
  if xsz = 0 ∧ ysz = 0 then 0
  else
    let rvy := if ysz ≠ 0 then (y &&& 1) <<< sh else 0
    let sh1 := if ysz ≠ 0 then sh + 1 else sh
    let y1 := if ysz ≠ 0 then y >>> 1 else y
    let rvx := if xsz ≠ 0 then (x &&& 1) <<< sh1 else 0
    let sh2 := if xsz ≠ 0 then sh1 + 1 else sh1
    let x1 := if xsz ≠ 0 then x >>> 1 else x
    (rvy ||| rvx) ||| twLoop x1 y1 (xsz >>> 1) (ysz >>> 1) sh2
termination_by xsz + ysz
decreasing_by
  simp only [Nat.shiftRight_one]
  omega

/-- `twiddle_slow(x, y, x_sz, y_sz)` from `TexUtils.cc`: both sizes are halved
before the interleaving loop. -/
def twiddle_slow (x y x_sz y_sz : Nat) : Nat :=
  twLoop x y (x_sz >>> 1) (y_sz >>> 1) 0

/-- `detwiddle[0][s][i]` as filled by `InitTexUtils`:
`twiddle_slow(i, 0, 1024, 1 << s)`. -/
def detwiddle0 (s i : Nat) : Nat := twiddle_slow i 0 1024 (1 <<< s)

/-- `detwiddle[1][s][i]` as filled by `InitTexUtils`:
`twiddle_slow(0, i, 1 << s, 1024)`. -/
def detwiddle1 (s i : Nat) : Nat := twiddle_slow 0 i (1 <<< s) 1024

/-! ### Bump-map tables (`InitTexUtils`, real-number model)

`InitTexUtils` fills `BM_SIN90[i] = 127 * sinf((i / 256.0f) * (M_PI / 2))`
into an `int8_t`; the C float-to-integer conversion truncates toward zero.
`sinf` is modeled as the exact real sine; at every index used below the real
product is far enough from the integers involved that the float rounding
error (a few ulps of a value below 128) cannot change the stored byte.
The following predicates relate an index and a stored value. -/

/-- The real product `127 * sin((i/256) * (pi/2))` that `InitTexUtils` computes
for `BM_SIN90[i]`. -/
def bmSin90Product (i : Nat) (x : ℝ) : Prop :=
  x = 127 * Real.sin ((i : ℝ) / 256 * (Real.pi / 2))

/-- C truncation toward zero of a real to an integer: the semantics of the
`int8_t` conversion in `BM_SIN90[i] = 127 * sinf(...)` (no overflow occurs, the
products all lie in `[-127, 127]`). -/
def cTruncStores (x : ℝ) (v : ℤ) : Prop :=
  (0 ≤ x → v = ⌊x⌋) ∧ (x < 0 → v = ⌈x⌉)

/-- The specified (rounded) value for a bump-map table entry. -/
def roundStores (x : ℝ) (v : ℤ) : Prop := v = round x

/-! ### Display-list decoding (`refsw_lists_regtypes.h`, `refsw_lists.cc`) -/

/-- `ObjectListTstrip.param_offs_in_words`: bits 0..20. -/
def tstrip_param_offs (w : Nat) : Nat := w % 2 ^ 21

/-- `ObjectListTstrip.skip`: bits 21..23. -/
def tstrip_skip (w : Nat) : Nat := w / 2 ^ 21 % 8

/-- `ObjectListTstrip.shadow`: bit 24. -/
def tstrip_shadow (w : Nat) : Nat := w / 2 ^ 24 % 2

/-- `ObjectListTstrip.mask`: bits 25..30. -/
def tstrip_mask (w : Nat) : Nat := w / 2 ^ 25 % 64

/-- `CoreTagFromDesc` from `refsw_lists.cc`: builds an `ISP_BACKGND_T_type`
word whose bit-fields are (`pvr_regs.h`) `tag_offset` bits 0..2,
`param_offs_in_words` bits 3..23, `skip` bits 24..26, `shadow` bit 27,
`cache_bypass` bit 28; each bit-field assignment truncates to its width. -/
def CoreTagFromDesc (cache_bypass shadow skip param_offs_in_words tag_offset : Nat) : Nat :=
  tag_offset % 8 + param_offs_in_words % 2 ^ 21 * 8 + skip % 8 * 2 ^ 24 +
  shadow % 2 * 2 ^ 27 + cache_bypass % 2 * 2 ^ 28

/-- One triangle emitted by `RenderTriangleStrip`: its parameter tag and the
indices (into the 8 decoded strip vertices) of the three vertices passed to
`RenderTriangle`. -/
structure StripTri where
  tag : Nat
  v1 : Nat
  v2 : Nat
  v3 : Nat
deriving DecidableEq, Repr

/-- The triangle-emission loop of `RenderTriangleStrip` (`refsw_lists.cc`):
for `i` in `0..5`, when `mask & (1 << (5 - i))` is set, the triangle with
vertices `vtx[i + not_even], vtx[i + even], vtx[i + 2]` (`not_even = i & 1`,
`even = not_even ^ 1`) is rendered with tag
`CoreTagFromDesc(CacheBypass, shadow, skip, param_offs, i)`.  The vertex data
itself is decoded by `decode_pvr_vertices` (declared elsewhere); only the
chosen indices matter here.  `cacheBypass` is `params.isp.CacheBypass` from
the decoded parameter block. -/
def RenderTriangleStrip (cacheBypass w : Nat) : List StripTri :=
  (List.range 6).filterMap fun i =>
    if tstrip_mask w &&& 1 <<< (5 - i) ≠ 0 then
      let not_even := i &&& 1
      let even := not_even ^^^ 1
      some ⟨CoreTagFromDesc cacheBypass (tstrip_shadow w) (tstrip_skip w)
              (tstrip_param_offs w) i,
            i + not_even, i + even, i + 2⟩
    else none

/-! ### Register file (`pvr_regs.h`) -/

/-- The register block, one `uint32_t` per word index. -/
def RegFile : Type := Nat → Nat

/-- `PvrReg(x, t)` reads `emu_regs[(x / 4) & pvr_RegMask]`; values are
`uint32_t`. -/
def regRead (regs : RegFile) (addr : Nat) : Nat :=
  regs (addr / 4 &&& 0x7FFF) % 2 ^ 32

/-- `PARAM_BASE` (offset 0x20). -/
def PARAM_BASE (regs : RegFile) : Nat := regRead regs 0x20

/-- `REGION_BASE` (offset 0x2C). -/
def REGION_BASE (regs : RegFile) : Nat := regRead regs 0x2C

/-- `FB_W_CTRL.fb_packmode` (offset 0x48, bits 0..2). -/
def FB_W_CTRL_fb_packmode (regs : RegFile) : Nat := regRead regs 0x48 % 8

/-- `FB_W_LINESTRIDE.stride` (offset 0x4C, bits 0..8). -/
def FB_W_LINESTRIDE_stride (regs : RegFile) : Nat := regRead regs 0x4C % 512

/-- `FB_W_SOF1` (offset 0x60). -/
def FB_W_SOF1 (regs : RegFile) : Nat := regRead regs 0x60

/-- `FB_W_SOF2` (offset 0x64). -/
def FB_W_SOF2 (regs : RegFile) : Nat := regRead regs 0x64

/-- `FPU_PARAM_CFG.region_header_type` (offset 0x7C, bit 21). -/
def FPU_PARAM_CFG_region_header_type (regs : RegFile) : Nat :=
  regRead regs 0x7C / 2 ^ 21 % 2

/-- `ISP_BACKGND_D` raw bits (offset 0x88; the float reinterpretation is
consumed only by the abstracted tile clear). -/
def ISP_BACKGND_D_bits (regs : RegFile) : Nat := regRead regs 0x88

/-- `ISP_BACKGND_T` raw word (offset 0x8C). -/
def ISP_BACKGND_T_full (regs : RegFile) : Nat := regRead regs 0x8C

/-- `ISP_FEED_CFG.pre_sort` (offset 0x98, bit 0). -/
def ISP_FEED_CFG_pre_sort (regs : RegFile) : Nat := regRead regs 0x98 % 2

/-- `SCALER_CTL.vscalefactor` (offset 0xF4, bits 0..15). -/
def SCALER_CTL_vscalefactor (regs : RegFile) : Nat := regRead regs 0xF4 % 65536

/-- `SCALER_CTL.hscale` (offset 0xF4, bit 16). -/
def SCALER_CTL_hscale (regs : RegFile) : Nat := regRead regs 0xF4 / 65536 % 2

/-- `SCALER_CTL.interlace` (offset 0xF4, bit 17). -/
def SCALER_CTL_interlace (regs : RegFile) : Nat := regRead regs 0xF4 / 131072 % 2

/-- `SCALER_CTL.fieldselect` (offset 0xF4, bit 18). -/
def SCALER_CTL_fieldselect (regs : RegFile) : Nat := regRead regs 0xF4 / 262144 % 2

/-! ### Region array entries (`refsw_lists_regtypes.h`, `ReadRegionArrayEntry`) -/

/-- `RegionArrayEntryControl.tilex`: bits 2..7. -/
def ctrl_tilex (c : Nat) : Nat := c / 4 % 64

/-- `RegionArrayEntryControl.tiley`: bits 8..13. -/
def ctrl_tiley (c : Nat) : Nat := c / 256 % 64

/-- `RegionArrayEntryControl.no_writeout`: bit 28. -/
def ctrl_no_writeout (c : Nat) : Nat := c / 2 ^ 28 % 2

/-- `RegionArrayEntryControl.pre_sort`: bit 29. -/
def ctrl_pre_sort (c : Nat) : Nat := c / 2 ^ 29 % 2

/-- `RegionArrayEntryControl.z_keep`: bit 30. -/
def ctrl_z_keep (c : Nat) : Nat := c / 2 ^ 30 % 2

/-- `RegionArrayEntryControl.last_region`: bit 31. -/
def ctrl_last_region (c : Nat) : Nat := c / 2 ^ 31 % 2

/-- Assignment to the `pre_sort` bit-field (bit 29) of a control word, used by
the 5-word region format to override it from `ISP_FEED_CFG`. -/
def ctrl_set_pre_sort (c v : Nat) : Nat :=
  c % 2 ^ 29 + v % 2 * 2 ^ 29 + c / 2 ^ 30 * 2 ^ 30

/-- `ListPointer.ptr_in_words`: bits 2..23. -/
def lp_ptr_in_words (p : Nat) : Nat := p / 4 % 2 ^ 22

/-- `ListPointer.empty`: bit 31. -/
def lp_empty (p : Nat) : Nat := p / 2 ^ 31 % 2

/-- A decoded region-array entry: the raw control word and the five raw list
pointers (`opq` stands for the opaque list, Lean reserves that word). -/
structure RegionArrayEntry where
  control : Nat
  opq : Nat
  opq_mod : Nat
  trans : Nat
  trans_mod : Nat
  puncht : Nat
deriving Repr

/-- `ReadRegionArrayEntry` from `refsw_lists.cc`: reads 5 or 6 words through
`vri` depending on `FPU_PARAM_CFG.region_header_type`; in the 5-word (v1)
format the punch-through pointer is synthesized as `0x80000000` (empty) and
`pre_sort` is overridden from `ISP_FEED_CFG`.  Returns the entry and the step
in bytes (20 or 24). -/
def ReadRegionArrayEntry (regs : RegFile) (vram : Vram) (base : Nat) :
    RegionArrayEntry × Nat :=
  let control := vri vram base
  let opq := vri vram (base + 4)
  let opq_mod := vri vram (base + 8)
  let trans := vri vram (base + 12)
  let trans_mod := vri vram (base + 16)
  if FPU_PARAM_CFG_region_header_type regs = 0 then
    (⟨ctrl_set_pre_sort control (ISP_FEED_CFG_pre_sort regs),
      opq, opq_mod, trans, trans_mod, 0x80000000⟩, 20)
  else
    (⟨control, opq, opq_mod, trans, trans_mod, vri vram (base + 20)⟩, 24)

/-- The constant byte step of the region walk (20 in v1 format, 24 in v2);
`FPU_PARAM_CFG` does not change during `RenderCORE`. -/
def regionStep (regs : RegFile) : Nat :=
  if FPU_PARAM_CFG_region_header_type regs = 0 then 20 else 24

/-- The `k`-th region-array entry as decoded from a fixed VRAM image. -/
def regionEntryAt (regs : RegFile) (vram : Vram) (k : Nat) : RegionArrayEntry :=
  (ReadRegionArrayEntry regs vram (REGION_BASE regs + k * regionStep regs)).1

/-! ### The render pass driver (`RenderCORE`, `RenderObjectList`) -/

/-- The closed set of render modes (`RenderMode` in the source):
opaque, punch-through pass 0 / pass N / modifier-volume resolve, translucent
auto-sort / presort, and modifier volume. -/
inductive RenderMode where
  | op
  | ptPass0
  | ptPassN
  | ptMV
  | trAutosort
  | trPresort
  | modVol
deriving DecidableEq, Repr

/-- Modelled from the spec: the closed set of error kinds of §7
(`ConfigurationUnsupported`, `MalformedList`, `AddressOutOfRange`,
`NumericDomain`).  The C sources have no error values: the configuration
checks in the writeback are `assert`s, which abort; an assert failure is
modeled as `Except.error ConfigurationUnsupported` below, and no other kind is
ever thrown by the modeled code. -/
inductive RenderError where
  | ConfigurationUnsupported
  | MalformedList
  | AddressOutOfRange
  | NumericDomain
deriving DecidableEq, Repr

/-- Observable pass events of an entry's processing: which object-list entries
were dispatched, unknown object types (the source `printf`s and skips them),
and each `RenderParamTags<mode>` invocation. -/
inductive PassEvent where
  | objStrip (mode : RenderMode) (obj : Nat)
  | objTArray (mode : RenderMode) (obj : Nat)
  | objQArray (mode : RenderMode) (obj : Nat)
  | malformedObject (t : Nat)
  | paramTags (mode : RenderMode)
deriving DecidableEq, Repr

/-- Modelled from the spec: the per-tile rasterizer state and its operations
(`refsw_tile.h` is only declared in the sources at hand).  Tile buffers, the
FPU cache and the more-to-draw flag live in `σ`; none of these operations
write VRAM (the ISP/TSP read textures and parameters but only the writeback
stores), so they are opaque state transformers.  `colorOut` is
`GetColorOutputBuffer()` as a byte map. -/
structure TileBackend (σ : Type) where
  clearFpuCache : σ → σ
  clearBuffers : Nat → Nat → σ → σ
  clearParamStatus : σ → σ
  renderStrip : Vram → RenderMode → Nat → σ → σ
  renderTArray : Vram → RenderMode → Nat → σ → σ
  renderQArray : Vram → RenderMode → Nat → σ → σ
  renderParamTags : RenderMode → σ → σ
  peelBuffersPTInitial : σ → σ
  peelBuffersPT : σ → σ
  peelBuffers : σ → σ
  setTagToMax : σ → σ
  clearMoreToDraw : σ → σ
  getMoreToDraw : σ → Bool
  colorOut : σ → Nat → Nat

/-- `RenderObjectList` from `refsw_lists.cc`: reads 32-bit object words from
the list, advancing by 4 bytes; a clear bit 31 dispatches a triangle strip;
otherwise the 3-bit type selects triangle array (`0b100`), quad array
(`0b101`), or link (`0b111`, ending the walk only when `end_of_list` is set,
else jumping to `next_block_ptr_in_words * 4`); unknown types are reported
(a `printf` in the source, an event here) and skipped.  The C loop is
unbounded; `fuel` makes the recursion well-founded, `none` meaning the walk
did not finish within `fuel` iterations. -/
def RenderObjectList {σ : Type} (B : TileBackend σ) (vram : Vram)
    (mode : RenderMode) :
    Nat → Nat → σ → List PassEvent → Option (σ × List PassEvent)
  | 0, _, _, _ => none
  | fuel + 1, base, st, evs =>
    let obj := vri vram base
    if obj / 2 ^ 31 % 2 = 0 then
      RenderObjectList B vram mode fuel (base + 4)
        (B.renderStrip vram mode obj st) (evs ++ [.objStrip mode obj])
    else if obj / 2 ^ 29 % 8 = 7 then
      if obj / 2 ^ 28 % 2 = 1 then some (st, evs)
      else RenderObjectList B vram mode fuel (obj / 4 % 2 ^ 22 * 4) st evs
    else if obj / 2 ^ 29 % 8 = 4 then
      RenderObjectList B vram mode fuel (base + 4)
        (B.renderTArray vram mode obj st) (evs ++ [.objTArray mode obj])
    else if obj / 2 ^ 29 % 8 = 5 then
      RenderObjectList B vram mode fuel (base + 4)
        (B.renderQArray vram mode obj st) (evs ++ [.objQArray mode obj])
    else
      RenderObjectList B vram mode fuel (base + 4) st
        (evs ++ [.malformedObject (obj / 2 ^ 29 % 8)])

/-- The punch-through `while (GetMoreToDraw())` peel loop of `RenderCORE`:
clear the flag, walk the PT list in pass-N mode, break if nothing was drawn,
else clear the flag again, keep the reference Z buffer and resolve tags. -/
def ptPeelLoop {σ : Type} (B : TileBackend σ) (vram : Vram) (ptBase : Nat) :
    Nat → σ → List PassEvent → Option (σ × List PassEvent)
  | 0, _, _ => none
  | fuel + 1, st, evs =>
    if B.getMoreToDraw st then
      let st := B.clearMoreToDraw st
      match RenderObjectList B vram .ptPassN fuel ptBase st evs with
      | none => none
      | some (st, evs) =>
        if B.getMoreToDraw st = false then some (st, evs)
        else
          let st := B.clearMoreToDraw st
          let st := B.peelBuffersPT st
          let st := B.renderParamTags .ptPass0 st
          ptPeelLoop B vram ptBase fuel st (evs ++ [.paramTags .ptPass0])
    else some (st, evs)

/-- The translucent auto-sort `do ... while (GetMoreToDraw())` peel loop of
`RenderCORE`: clear the flag, peel the depth buffers, walk the translucent
list, walk the translucent-modifier list when present, resolve tags, repeat
while more layers remain. -/
def trPeelLoop {σ : Type} (B : TileBackend σ) (vram : Vram)
    (trBase trModBase : Nat) (hasMod : Bool) :
    Nat → σ → List PassEvent → Option (σ × List PassEvent)
  | 0, _, _ => none
  | fuel + 1, st, evs =>
    let st := B.clearMoreToDraw st
    let st := B.peelBuffers st
    match RenderObjectList B vram .trAutosort fuel trBase st evs with
    | none => none
    | some (st, evs) =>
      match (if hasMod then RenderObjectList B vram .modVol fuel trModBase st evs
             else some (st, evs)) with
      | none => none
      | some (st, evs) =>
        let st := B.renderParamTags .trAutosort st
        let evs := evs ++ [.paramTags .trAutosort]
        if B.getMoreToDraw st then trPeelLoop B vram trBase trModBase hasMod fuel st evs
        else some (st, evs)

/-- The `Copy to vram` writeback block of `RenderCORE`: choose the field start
address, check the supported configuration (the four `assert`s of the source,
modeled as `ConfigurationUnsupported` aborts), then pack the 32×32 tile
accumulator to VRAM; each pixel's destination is
`base + tilex*32*bpp + tiley*32*stride*8 + y*stride*8 + x*bpp`, exactly the
running `dst` of the source, and the source's running `src` pointer reads
byte `(y*32 + x)*4 + c` of the color output buffer. -/
def writeTile {σ : Type} (B : TileBackend σ) (regs : RegFile) (st : σ)
    (control : Nat) (vram : Vram) : Except RenderError Vram :=
  let base := if SCALER_CTL_interlace regs ≠ 0 ∧ SCALER_CTL_fieldselect regs ≠ 0
              then FB_W_SOF2 regs else FB_W_SOF1 regs
  if SCALER_CTL_hscale regs ≠ 0 then .error .ConfigurationUnsupported
  else if SCALER_CTL_interlace regs ≠ 0 then .error .ConfigurationUnsupported
  else if ¬(SCALER_CTL_vscalefactor regs = 0x401 ∨ SCALER_CTL_vscalefactor regs = 0x400 ∨
            SCALER_CTL_vscalefactor regs = 0x800) then .error .ConfigurationUnsupported
  else if ¬(FB_W_CTRL_fb_packmode regs = 1 ∨ FB_W_CTRL_fb_packmode regs = 6) then
    .error .ConfigurationUnsupported
  else
    let packmode := FB_W_CTRL_fb_packmode regs
    let bpp := if packmode = 1 then 2 else 4
    let stride8 := FB_W_LINESTRIDE_stride regs * 8
    let offset_bytes := ctrl_tilex control * 32 * bpp + ctrl_tiley control * 32 * stride8
    .ok <| (List.range 32).foldl (fun vram y =>
      (List.range 32).foldl (fun vram x =>
        let dst := base + offset_bytes + y * stride8 + x * bpp
        let src := fun c => B.colorOut st ((y * 32 + x) * 4 + c) % 256
        if packmode = 1 then
          pvr_write_area1_16 vram dst (pack565 x y (src 0) (src 1) (src 2))
        else
          pvr_write_area1_32 vram dst (pack8888 (src 0) (src 1) (src 2) (src 3)))
        vram) vram

/-- Processing of one region-array entry, the body of the `do` loop of
`RenderCORE`: reset the FPU cache, clear or keep the tile buffers per
`z_keep`, walk the opaque (and opaque-modifier) lists when non-empty,
unconditionally resolve opaque tags, run the punch-through block when its
list is non-empty, run the translucent presort pass or auto-sort peel loop
when the translucent list is non-empty, and finally write the tile back
unless `no_writeout`.  Returns the events produced so far and `none` when an
inner walk or peel loop ran out of fuel (the C code would not have
terminated within that many iterations). -/
def processEntry {σ : Type} (B : TileBackend σ) (regs : RegFile) (fuel : Nat)
    (vram : Vram) (st : σ) (e : RegionArrayEntry) :
    List PassEvent × Option (Except RenderError (σ × Vram)) :=
  let st := B.clearFpuCache st
  let bgTag := ISP_BACKGND_T_full regs
  let st := if ctrl_z_keep e.control = 0 then
              B.clearBuffers bgTag (ISP_BACKGND_D_bits regs) st
            else B.clearParamStatus st
  let r1 : Option (σ × List PassEvent) :=
    if lp_empty e.opq = 0 then
      match RenderObjectList B vram .op fuel (lp_ptr_in_words e.opq * 4) st [] with
      | none => none
      | some (st, evs) =>
        if lp_empty e.opq_mod = 0 then
          RenderObjectList B vram .modVol fuel (lp_ptr_in_words e.opq_mod * 4) st evs
        else some (st, evs)
    else some (st, [])
  match r1 with
  | none => ([], none)
  | some (st, evs) =>
    let st := B.renderParamTags .op st
    let evs := evs ++ [.paramTags .op]
    let r2 : Option (σ × List PassEvent) :=
      if lp_empty e.puncht = 0 then
        let st := B.peelBuffersPTInitial st
        let st := B.clearMoreToDraw st
        match RenderObjectList B vram .ptPass0 fuel (lp_ptr_in_words e.puncht * 4) st evs with
        | none => none
        | some (st, evs) =>
          let st := B.peelBuffersPT st
          let st := B.renderParamTags .ptPass0 st
          let evs := evs ++ [.paramTags .ptPass0]
          match ptPeelLoop B vram (lp_ptr_in_words e.puncht * 4) fuel st evs with
          | none => none
          | some (st, evs) =>
            if lp_empty e.opq_mod = 0 then
              match RenderObjectList B vram .modVol fuel
                  (lp_ptr_in_words e.opq_mod * 4) st evs with
              | none => none
              | some (st, evs) =>
                some (B.renderParamTags .ptMV st, evs ++ [.paramTags .ptMV])
            else some (st, evs)
      else some (st, evs)
    match r2 with
    | none => (evs, none)
    | some (st, evs) =>
      let r3 : Option (σ × List PassEvent) :=
        if lp_empty e.trans = 0 then
          if ctrl_pre_sort e.control ≠ 0 then
            let st := B.clearParamStatus st
            RenderObjectList B vram .trPresort fuel (lp_ptr_in_words e.trans * 4) st evs
          else
            let st := B.setTagToMax st
            trPeelLoop B vram (lp_ptr_in_words e.trans * 4)
              (lp_ptr_in_words e.trans_mod * 4) (lp_empty e.trans_mod = 0) fuel st evs
        else some (st, evs)
      match r3 with
      | none => (evs, none)
      | some (st, evs) =>
        if ctrl_no_writeout e.control = 0 then
          match writeTile B regs st e.control vram with
          | .error err => (evs, some (.error err))
          | .ok vram => (evs, some (.ok (st, vram)))
        else (evs, some (.ok (st, vram)))

/-- The region-array `do ... while (!entry.control.last_region)` loop of
`RenderCORE`: decode the entry at `base`, process it, stop after it when its
`last_region` flag is set, else continue at `base + step`.  The C loop is
unbounded; `fuel` bounds the modeled iteration count, `none` meaning the
render did not finish within `fuel` entries. -/
def RenderCOREloop {σ : Type} (B : TileBackend σ) (regs : RegFile) :
    Nat → Vram → σ → Nat → Option (Except RenderError (σ × Vram))
  | 0, _, _, _ => none
  | fuel + 1, vram, st, base =>
    let es := ReadRegionArrayEntry regs vram base
    match processEntry B regs fuel vram st es.1 with
    | (_, none) => none
    | (_, some (.error err)) => some (.error err)
    | (_, some (.ok (st, vram))) =>
      if ctrl_last_region es.1.control = 0 then
        RenderCOREloop B regs fuel vram st (base + es.2)
      else some (.ok (st, vram))

/-- `RenderCORE`: run the region-array loop starting at `REGION_BASE`. -/
def RenderCORE {σ : Type} (B : TileBackend σ) (regs : RegFile) (vram : Vram)
    (st : σ) (fuel : Nat) : Option (Except RenderError (σ × Vram)) :=
  RenderCOREloop B regs fuel vram st (REGION_BASE regs)

/-! ### Predicates and concrete instances used by the theorems -/

/-- The register configurations rejected by the writeback `assert`s of
`RenderCORE`: `hscale != 0`, `interlace != 0`, `vscalefactor` outside
`{0x400, 0x401, 0x800}`, or `fb_packmode` outside `{1, 6}`. -/
def UnsupportedConfig (regs : RegFile) : Prop :=
  SCALER_CTL_hscale regs ≠ 0 ∨ SCALER_CTL_interlace regs ≠ 0 ∨
  ¬(SCALER_CTL_vscalefactor regs = 0x401 ∨ SCALER_CTL_vscalefactor regs = 0x400 ∨
    SCALER_CTL_vscalefactor regs = 0x800) ∨
  ¬(FB_W_CTRL_fb_packmode regs = 1 ∨ FB_W_CTRL_fb_packmode regs = 6)

/-- A region entry that renders nothing and writes nothing: its opaque,
punch-through and translucent pointers are flagged empty and `no_writeout` is
set.  Processing such an entry touches neither VRAM nor any unbounded loop. -/
def CleanEntry (e : RegionArrayEntry) : Prop :=
  ctrl_no_writeout e.control = 1 ∧ lp_empty e.opq = 1 ∧
  lp_empty e.puncht = 1 ∧ lp_empty e.trans = 1

/-- Whether a fueled render result is a completed, non-error frame. -/
def resultOk {ε α : Type} : Option (Except ε α) → Bool
  | some (.ok _) => true
  | _ => false

/-- A trivial tile backend over the unit state. -/
def unitBackend : TileBackend Unit where
  clearFpuCache := fun _ => ()
  clearBuffers := fun _ _ _ => ()
  clearParamStatus := fun _ => ()
  renderStrip := fun _ _ _ _ => ()
  renderTArray := fun _ _ _ _ => ()
  renderQArray := fun _ _ _ _ => ()
  renderParamTags := fun _ _ => ()
  peelBuffersPTInitial := fun _ => ()
  peelBuffersPT := fun _ => ()
  peelBuffers := fun _ => ()
  setTagToMax := fun _ => ()
  clearMoreToDraw := fun _ => ()
  getMoreToDraw := fun _ => false
  colorOut := fun _ _ => 0

/-- The unit backend with an all-white color output buffer. -/
def whiteBackend : TileBackend Unit :=
  { unitBackend with colorOut := fun _ _ => 255 }

/-- The all-zero register file. -/
def regs0 : RegFile := fun _ => 0

/-- The all-zero VRAM image. -/
def vram0 : Vram := fun _ => 0

/-- A VRAM image whose region array (v1 format, base 0, step 20, hence entry
`k` spans mapped bytes `40*k .. 40*k + 39`) consists of entries with all list
pointers empty (`0x80000000`) and `no_writeout` set (`0x10000000`), except
that entry 1024 additionally carries `last_region` (`0x90000000`). -/
def vramCE : Vram := fun b =>
  if b % 8 = 3 then
    (if b % 40 = 3 then (if b = 40 * 1024 + 3 then 0x90 else 0x10) else 0x80)
  else 0

/-- A VRAM image holding a single region entry (v1 format, base 0) whose every
word has only bit 31 set: `last_region` on the control word, `empty` on each
list pointer, and `no_writeout` clear. -/
def vram1 : Vram := fun b => if b % 8 = 3 ∧ b < 48 then 0x80 else 0

/-- Like `vram1` but with `no_writeout` also set on the entry (control word
`0x90000000`): a region array whose single entry renders nothing and skips
the writeback. -/
def vram2 : Vram := fun b =>
  if b % 8 = 3 ∧ b < 48 then (if b = 3 then 0x90 else 0x80) else 0

/-- A supported writeback configuration whose framebuffer start-of-field
address is the last byte of VRAM: `FB_W_CTRL = 1` (RGB565),
`FB_W_SOF1 = 0x7FFFFF`, `SCALER_CTL = 0x400`, everything else zero. -/
def regs9 : RegFile := fun i =>
  if i = 18 then 1 else if i = 24 then 0x7FFFFF else if i = 61 then 0x400 else 0

/-! ### Generic bit-arithmetic helpers -/

/-- A disjoint bitwise-or is an addition: if the low `2^k` slice is occupied
only by `a`, the or with a multiple of `2^k` adds. -/
theorem lor_mul_two_pow_eq_add {a : Nat} (k b : Nat) (h : a < 2 ^ k) :
    a ||| 2 ^ k * b = a + 2 ^ k * b := by
  rw [Nat.or_comm, ← Nat.mul_add_lt_is_or h b, Nat.add_comm]

/-- Multiplication by a power of two distributes over bitwise or. -/
theorem mul_two_pow_lor (k a b : Nat) :
    2 ^ k * (a ||| b) = 2 ^ k * a ||| 2 ^ k * b := by
  apply Nat.eq_of_testBit_eq
  intro i
  rw [Nat.mul_comm _ (a ||| b), Nat.mul_comm _ a, Nat.mul_comm _ b,
    ← Nat.shiftLeft_eq, ← Nat.shiftLeft_eq, ← Nat.shiftLeft_eq]
  simp [Nat.testBit_shiftLeft, Nat.testBit_or, Bool.and_or_distrib_left]

/-- Absorbing a disjoint or under an additive low remainder: when the low
`2^k` slice holds only `y`, or-ing a multiple of `2^k` distributes onto the
high part. -/
theorem mul_add_lor_mul (k X y z : Nat) (hy : y < 2 ^ k) :
    2 ^ k * X + y ||| 2 ^ k * z = 2 ^ k * (X ||| z) + y := by
  rw [Nat.mul_add_lt_is_or hy X, Nat.or_assoc, Nat.or_comm y, ← Nat.or_assoc,
    ← mul_two_pow_lor, ← Nat.mul_add_lt_is_or hy (X ||| z)]

/-- Bitwise and with a mask of the shape `m <<< k` extracts a shifted field. -/
theorem and_shiftLeft_mask (x m k : Nat) :
    x &&& m <<< k = (x >>> k &&& m) <<< k := by
  apply Nat.eq_of_testBit_eq
  intro i
  rcases Nat.lt_or_ge i k with h | h
  · simp [Nat.testBit_and, Nat.testBit_shiftLeft, Nat.not_le.mpr h]
  · simp [Nat.testBit_and, Nat.testBit_shiftLeft, Nat.testBit_shiftRight, h,
      Nat.add_sub_cancel' h]

/-- Disjoint or of a low slice below bit 2, a bit-2 selector and a span from
bit 3 up is an addition. -/
theorem add_small_lor_bit2 (a m b : Nat) (ha : a < 4) (hb : b < 2) :
    a + 2 ^ 3 * m ||| b * 4 = a + 2 ^ 3 * m + b * 4 := by
  interval_cases b
  · simp
  · have h1 : a + 2 ^ 3 * m = 2 ^ 3 * m ||| a := by
      rw [← Nat.mul_add_lt_is_or (by omega) m]; omega
    have h2 : a ||| 1 * 4 = a + 4 := by
      have := lor_mul_two_pow_eq_add 2 1 (a := a) (by omega)
      simpa using this
    have h3 : 2 ^ 3 * m ||| (a + 4) = 2 ^ 3 * m + (a + 4) :=
      (Nat.mul_add_lt_is_or (by omega) m).symm
    rw [h1, Nat.or_assoc, h2, h3]
    omega

/-! ### C2 — the VRAM address transform -/

/-- Arithmetic closed form of `pvr_map32`: low two bits kept, bits 2..21
shifted up by one, the bank bit (bit 22) moved to bit 2. -/
theorem pvr_map32_eq (o : Nat) :
    pvr_map32 o = o % 4 + o / 4 % 2 ^ 20 * 8 + o / 2 ^ 22 % 2 * 4 := by
  have hstatic : o &&& ((VRAM_MASK - (VRAM_BANK_BIT * 2 - 1)) ||| 3) = o % 4 := by
    have : (VRAM_MASK - (VRAM_BANK_BIT * 2 - 1)) ||| 3 = 2 ^ 2 - 1 := by decide
    rw [this, Nat.and_pow_two_sub_one_eq_mod]
  have hoff : o &&& ((VRAM_BANK_BIT - 1) &&& 0xFFFFFFFC) = o / 4 % 2 ^ 20 * 4 := by
    have h1 : (VRAM_BANK_BIT - 1) &&& 0xFFFFFFFC = (2 ^ 20 - 1) <<< 2 := by decide
    rw [h1, and_shiftLeft_mask, Nat.shiftLeft_eq, Nat.shiftRight_eq_div_pow,
      Nat.and_pow_two_sub_one_eq_mod]
  have hbank : (o &&& VRAM_BANK_BIT) / VRAM_BANK_BIT = o / 2 ^ 22 % 2 := by
    have h1 : VRAM_BANK_BIT = 2 ^ 22 := by decide
    rw [h1, Nat.and_two_pow, Nat.testBit_to_div_mod]
    rcases Nat.mod_two_eq_zero_or_one (o / 2 ^ 22) with h | h <;> rw [h]
    all_goals decide
  show (o &&& _ ||| (o &&& _) * 2) ||| (o &&& VRAM_BANK_BIT) / VRAM_BANK_BIT * 4 = _
  rw [hstatic, hoff, hbank]
  have e1 : o % 4 ||| o / 4 % 2 ^ 20 * 4 * 2 = o % 4 + 2 ^ 3 * (o / 4 % 2 ^ 20) := by
    have h48 : o / 4 % 2 ^ 20 * 4 * 2 = 2 ^ 3 * (o / 4 % 2 ^ 20) := by ring
    rw [h48, lor_mul_two_pow_eq_add 3 _ (by omega)]
  rw [e1, add_small_lor_bit2 _ _ _ (by omega) (by omega)]
  ring

/-- The bank-interleaving map keeps every input inside the 8 MiB VRAM. -/
theorem pvr_map32_lt (o : Nat) : pvr_map32 o < VRAM_SIZE := by
  rw [pvr_map32_eq]
  have h1 : o % 4 < 4 := Nat.mod_lt _ (by norm_num)
  have h2 : o / 4 % 2 ^ 20 < 2 ^ 20 := Nat.mod_lt _ (by norm_num)
  have h3 : o / 2 ^ 22 % 2 < 2 := Nat.mod_lt _ (by norm_num)
  show _ < 8 * 1024 * 1024
  omega

/-- `pvr_map32` only depends on the address modulo 8 MiB: the high bits are
discarded, which acts exactly as masking by `VRAM_MASK`. -/
theorem pvr_map32_mod (o : Nat) : pvr_map32 o = pvr_map32 (o % 2 ^ 23) := by
  rw [pvr_map32_eq, pvr_map32_eq]
  have e1 : o % 2 ^ 23 % 4 = o % 4 := by
    rw [Nat.mod_mod_of_dvd _ (by norm_num)]
  have e2 : o % 2 ^ 23 / 4 % 2 ^ 20 = o / 4 % 2 ^ 20 := by
    have h : (2 : Nat) ^ 23 = 4 * 2 ^ 21 := by norm_num
    rw [h, Nat.mod_mul_right_div_self, Nat.mod_mod_of_dvd _ (by norm_num)]
  have e3 : o % 2 ^ 23 / 2 ^ 22 % 2 = o / 2 ^ 22 % 2 := by
    have h : (2 : Nat) ^ 23 = 2 ^ 22 * 2 := by norm_num
    rw [h, Nat.mod_mul_right_div_self]
    omega
  rw [e1, e2, e3]

/-- C2, counterexample: `pvr_map32` is not an involution on 4-byte-aligned
offsets within a single bank.  The aligned bank-0 offset 4 maps to 8, which
maps on to 16, not back to 4. -/
theorem pvr_map32_not_involution :
    pvr_map32 4 = 8 ∧ pvr_map32 (pvr_map32 4) = 16 ∧ pvr_map32 (pvr_map32 4) ≠ 4 := by
  decide

/-- C2, amended: restricted to 4-byte-aligned offsets of the 8 MiB space,
`pvr_map32` sends the offset with in-bank remainder `r` and bank `b` to
`2*r + 4*b`; it is injective (one-to-one, not an involution) and interleaves
the two banks every 32 bits: the image address is `≡ 4*bank (mod 8)`. -/
theorem pvr_map32_aligned_interleaves (o p : Nat) (ho : o < 2 ^ 23)
    (ho4 : o % 4 = 0) (hp : p < 2 ^ 23) (hp4 : p % 4 = 0) :
    pvr_map32 o = 2 * (o % 2 ^ 22) + 4 * (o / 2 ^ 22) ∧
    pvr_map32 o % 8 = 4 * (o / 2 ^ 22) ∧
    (pvr_map32 o = pvr_map32 p → o = p) := by
  have ho1 : o / 4 / 2 ^ 20 = o / 2 ^ 22 := by
    rw [Nat.div_div_eq_div_mul]; norm_num
  have hp1 : p / 4 / 2 ^ 20 = p / 2 ^ 22 := by
    rw [Nat.div_div_eq_div_mul]; norm_num
  have hmo : o % 2 ^ 22 % 4 = o % 4 := Nat.mod_mod_of_dvd _ (by norm_num)
  have hmp : p % 2 ^ 22 % 4 = p % 4 := Nat.mod_mod_of_dvd _ (by norm_num)
  have hdo : o % 2 ^ 22 / 4 = o / 4 % 2 ^ 20 := by
    have h : (2 : Nat) ^ 22 = 4 * 2 ^ 20 := by norm_num
    rw [h, Nat.mod_mul_right_div_self]
  have hdp : p % 2 ^ 22 / 4 = p / 4 % 2 ^ 20 := by
    have h : (2 : Nat) ^ 22 = 4 * 2 ^ 20 := by norm_num
    rw [h, Nat.mod_mul_right_div_self]
  rw [pvr_map32_eq, pvr_map32_eq]
  refine ⟨by omega, by omega, fun h => ?_⟩
  have hol : o / 2 ^ 22 % 2 = o / 2 ^ 22 := Nat.mod_eq_of_lt (by omega)
  have hpl : p / 2 ^ 22 % 2 = p / 2 ^ 22 := Nat.mod_eq_of_lt (by omega)
  rw [ho4, hp4, hol, hpl] at h
  have h1 : o / 2 ^ 22 = p / 2 ^ 22 := by omega
  have h2 : o / 4 % 2 ^ 20 = p / 4 % 2 ^ 20 := by omega
  omega

/-- C2 witness: the amended statement evaluated at offsets 8 (bank 0) and
`0x400000` (bank 1). -/
theorem pvr_map32_aligned_interleaves_witness :
    (8 : Nat) < 2 ^ 23 ∧ 8 % 4 = 0 ∧
    (pvr_map32 8 = 2 * (8 % 2 ^ 22) + 4 * (8 / 2 ^ 22) ∧
     pvr_map32 8 % 8 = 4 * (8 / 2 ^ 22) ∧
     (pvr_map32 8 = pvr_map32 0x400000 → 8 = 0x400000)) :=
  ⟨by decide, by decide,
    pvr_map32_aligned_interleaves 8 0x400000 (by decide) (by decide)
      (by decide) (by decide)⟩

/-! ### C9 — VRAM write containment -/

/-- C9, amended: the mapped store address of the VRAM write helpers is always
inside the 8 MiB array — `pvr_map32` discards all address bits above bit 22,
which is exactly masking by `VRAM_MASK` — and a 16-bit store at an even
address or a 32-bit store at a 4-byte-aligned address touches no byte outside
the array.  (An unaligned store whose mapped address reaches the last bytes of
the array can spill past it; see the counterexample.) -/
theorem vram_write_bounds (vram : Vram) (addr data b : Nat) :
    pvr_map32 addr < VRAM_SIZE ∧
    pvr_map32 addr = pvr_map32 (addr &&& VRAM_MASK) ∧
    (addr % 2 = 0 → VRAM_SIZE ≤ b → pvr_write_area1_16 vram addr data b = vram b) ∧
    (addr % 4 = 0 → VRAM_SIZE ≤ b → pvr_write_area1_32 vram addr data b = vram b) := by
  have hmask : addr &&& VRAM_MASK = addr % 2 ^ 23 := by
    have h : VRAM_MASK = 2 ^ 23 - 1 := by decide
    rw [h, Nat.and_pow_two_sub_one_eq_mod]
  have hm := pvr_map32_eq addr
  have hlt := pvr_map32_lt addr
  have hV : VRAM_SIZE = 8388608 := rfl
  refine ⟨hlt, by rw [hmask]; exact pvr_map32_mod addr, ?_, ?_⟩
  · intro h2 hb
    simp only [pvr_write_area1_16, writeByte]
    have hne1 : b ≠ pvr_map32 addr + 1 := by omega
    have hne0 : b ≠ pvr_map32 addr := by omega
    rw [if_neg hne1, if_neg hne0]
  · intro h4 hb
    simp only [pvr_write_area1_32, writeByte]
    have hne3 : b ≠ pvr_map32 addr + 3 := by omega
    have hne2 : b ≠ pvr_map32 addr + 2 := by omega
    have hne1 : b ≠ pvr_map32 addr + 1 := by omega
    have hne0 : b ≠ pvr_map32 addr := by omega
    rw [if_neg hne3, if_neg hne2, if_neg hne1, if_neg hne0]

/-- C9 witness: the amended statement evaluated at the topmost aligned 16-bit
store; byte `0x800000` (the first index past the array) is untouched. -/
theorem vram_write_bounds_witness :
    (0x7FFFFE : Nat) % 2 = 0 ∧ (VRAM_SIZE ≤ 0x800000) ∧
    pvr_write_area1_16 vram0 0x7FFFFE 0xABCD 0x800000 = vram0 0x800000 :=
  ⟨by decide, by decide,
    (vram_write_bounds vram0 0x7FFFFE 0xABCD 0x800000).2.2.1 (by decide) (by decide)⟩

/-! ### C4 — ARGB4444 unpacking -/

/-- C4, counterexample: the 16-bit texel `0xFFFF` unpacks to `0xF0F0F0F0`, so
the nibble `0xF` yields the channel byte `0xF0`, not the duplicated `0xFF`
the claim asserts. -/
theorem ARGB4444_32_not_duplicated :
    ARGB4444_32 0xFFFF = 0xF0F0F0F0 ∧ ARGB4444_32 0xFFFF % 256 = 0xF0 ∧
    (0xF0 : Nat) ≠ 0xFF := by
  decide

/-- C4, amended: each 8-bit output channel of `ARGB4444_32` is the
corresponding 4-bit nibble shifted into the high half of the byte (`n * 16`,
low four bits zero), for every texel word: byte 0 is blue, byte 1 green,
byte 2 red, byte 3 alpha. -/
theorem ARGB4444_32_channels (w : Nat) :
    ARGB4444_32 w % 256 = w % 16 * 16 ∧
    ARGB4444_32 w / 256 % 256 = w / 16 % 16 * 16 ∧
    ARGB4444_32 w / 65536 % 256 = w / 256 % 16 * 16 ∧
    ARGB4444_32 w / 16777216 % 256 = w / 4096 % 16 * 16 := by
  have hv : ARGB4444_32 w =
      w / 4096 % 16 * 268435456 + w / 256 % 16 * 1048576 +
      w / 16 % 16 * 4096 + w % 16 * 16 := by
    show (w >>> 12 &&& 0xF) <<< 28 ||| (w >>> 0 &&& 0xF) <<< 4 |||
      (w >>> 4 &&& 0xF) <<< 12 ||| (w >>> 8 &&& 0xF) <<< 20 = _
    have hF : (0xF : Nat) = 2 ^ 4 - 1 := by norm_num
    rw [hF]
    simp only [Nat.shiftRight_eq_div_pow, Nat.and_pow_two_sub_one_eq_mod,
      Nat.shiftLeft_eq, Nat.pow_zero, Nat.div_one]
    have key : ∀ a b g r : Nat, a < 2 ^ 4 → b < 2 ^ 4 → g < 2 ^ 4 → r < 2 ^ 4 →
        a * 2 ^ 28 ||| b * 2 ^ 4 ||| g * 2 ^ 12 ||| r * 2 ^ 20 =
        a * 2 ^ 28 + r * 2 ^ 20 + g * 2 ^ 12 + b * 2 ^ 4 := by
      intro a b g r ha hb hg hr
      have s1 : a * 2 ^ 28 ||| b * 2 ^ 4 = 2 ^ 28 * a + b * 2 ^ 4 := by
        rw [Nat.mul_comm a, ← Nat.mul_add_lt_is_or (by omega) a]
      have s2 : 2 ^ 28 * a + b * 2 ^ 4 ||| g * 2 ^ 12 =
          2 ^ 12 * (2 ^ 16 * a ||| g) + b * 2 ^ 4 := by
        have l : 2 ^ 28 * a + b * 2 ^ 4 = 2 ^ 12 * (2 ^ 16 * a) + b * 2 ^ 4 := by ring
        have m : g * 2 ^ 12 = 2 ^ 12 * g := by ring
        rw [l, m, mul_add_lor_mul 12 _ _ _ (by omega)]
      have s2x : 2 ^ 16 * a ||| g = 2 ^ 16 * a + g :=
        (Nat.mul_add_lt_is_or (by omega) a).symm
      have s3 : 2 ^ 12 * (2 ^ 16 * a + g) + b * 2 ^ 4 ||| r * 2 ^ 20 =
          2 ^ 20 * (2 ^ 8 * a ||| r) + (2 ^ 12 * g + b * 2 ^ 4) := by
        have l : 2 ^ 12 * (2 ^ 16 * a + g) + b * 2 ^ 4 =
            2 ^ 20 * (2 ^ 8 * a) + (2 ^ 12 * g + b * 2 ^ 4) := by ring
        have m : r * 2 ^ 20 = 2 ^ 20 * r := by ring
        rw [l, m, mul_add_lor_mul 20 _ _ _ (by omega)]
      have s3x : 2 ^ 8 * a ||| r = 2 ^ 8 * a + r :=
        (Nat.mul_add_lt_is_or (by omega) a).symm
      rw [s1, s2, s2x, s3, s3x]
      ring
    have hk := key (w / 2 ^ 12 % 2 ^ 4) (w % 2 ^ 4) (w / 2 ^ 4 % 2 ^ 4)
      (w / 2 ^ 8 % 2 ^ 4) (by omega) (by omega) (by omega) (by omega)
    rw [hk]
    norm_num
  obtain ⟨A, hA⟩ : ∃ A, w / 4096 % 16 = A := ⟨_, rfl⟩
  obtain ⟨C, hC⟩ : ∃ C, w / 256 % 16 = C := ⟨_, rfl⟩
  obtain ⟨E, hE⟩ : ∃ E, w / 16 % 16 = E := ⟨_, rfl⟩
  obtain ⟨G, hG⟩ : ∃ G, w % 16 = G := ⟨_, rfl⟩
  have hAb : A < 16 := by omega
  have hCb : C < 16 := by omega
  have hEb : E < 16 := by omega
  have hGb : G < 16 := by omega
  rw [hA, hC, hE, hG] at hv ⊢
  clear hA hC hE hG
  refine ⟨?_, ?_, ?_, ?_⟩ <;> omega

/-! ### C5 — the RGB565 dithered writeback pack -/

/-- Every entry of the Bayer bias matrix is at most 248. -/
theorem bayerBias_le (r c : Nat) (hr : r < 4) (hc : c < 4) : bayerBias r c ≤ 248 := by
  interval_cases r <;> interval_cases c <;> decide

/-- C5: for every pixel position and 8-bit accumulator components, the 565
writeback pack quantizes each channel as `(v8 * max + T) / 255` with
`T = bayerBias[y & 3][x & 3]`, the source clamp never fires, the packed
components sit at bits 0..4 / 5..10 / 11..15, and they lie within
`[0, 31] / [0, 63] / [0, 31]`. -/
theorem pack565_spec (x y r8 g8 b8 : Nat)
    (hr : r8 < 256) (hg : g8 < 256) (hb : b8 < 256) :
    pack565 x y r8 g8 b8 % 32 = (r8 * 31 + bayerBias (y % 4) (x % 4)) / 255 ∧
    pack565 x y r8 g8 b8 / 32 % 64 = (g8 * 63 + bayerBias (y % 4) (x % 4)) / 255 ∧
    pack565 x y r8 g8 b8 / 2048 = (b8 * 31 + bayerBias (y % 4) (x % 4)) / 255 ∧
    (r8 * 31 + bayerBias (y % 4) (x % 4)) / 255 ≤ 31 ∧
    (g8 * 63 + bayerBias (y % 4) (x % 4)) / 255 ≤ 63 ∧
    (b8 * 31 + bayerBias (y % 4) (x % 4)) / 255 ≤ 31 := by
  have hand : ∀ n : Nat, n &&& 3 = n % 4 := fun n => by
    have h3 : (3 : Nat) = 2 ^ 2 - 1 := by norm_num
    rw [h3, Nat.and_pow_two_sub_one_eq_mod]
  have hT : bayerBias (y % 4) (x % 4) ≤ 248 :=
    bayerBias_le _ _ (Nat.mod_lt _ (by norm_num)) (Nat.mod_lt _ (by norm_num))
  set T := bayerBias (y % 4) (x % 4) with hTdef
  have hr5 : (r8 * 31 + T) / 255 ≤ 31 := by omega
  have hg6 : (g8 * 63 + T) / 255 ≤ 63 := by omega
  have hb5 : (b8 * 31 + T) / 255 ≤ 31 := by omega
  have hpix : pack565 x y r8 g8 b8 =
      (r8 * 31 + T) / 255 + (g8 * 63 + T) / 255 * 32 + (b8 * 31 + T) / 255 * 2048 := by
    show (let T' := bayerBias (y &&& 3) (x &&& 3)
          let r5 := (r8 * 31 + T') / 255
          let g6 := (g8 * 63 + T') / 255
          let b5 := (b8 * 31 + T') / 255
          let r5 := if 31 < r5 then 31 else r5
          let g6 := if 63 < g6 then 63 else g6
          let b5 := if 31 < b5 then 31 else b5
          r5 ||| g6 <<< 5 ||| b5 <<< 11) = _
    simp only [hand x, hand y, ← hTdef]
    rw [if_neg (by omega), if_neg (by omega), if_neg (by omega)]
    rw [Nat.shiftLeft_eq, Nat.shiftLeft_eq]
    set r5 := (r8 * 31 + T) / 255
    set g6 := (g8 * 63 + T) / 255
    set b5 := (b8 * 31 + T) / 255
    have e1 : r5 ||| g6 * 2 ^ 5 = r5 + 2 ^ 5 * g6 := by
      rw [Nat.mul_comm g6, lor_mul_two_pow_eq_add 5 _ (by omega)]
    have e2 : r5 + 2 ^ 5 * g6 ||| b5 * 2 ^ 11 = r5 + 2 ^ 5 * g6 + 2 ^ 11 * b5 := by
      rw [Nat.mul_comm b5, lor_mul_two_pow_eq_add 11 _ (by omega)]
    rw [e1, e2]
    ring
  obtain ⟨R, hR⟩ : ∃ R, (r8 * 31 + T) / 255 = R := ⟨_, rfl⟩
  obtain ⟨G, hG⟩ : ∃ G, (g8 * 63 + T) / 255 = G := ⟨_, rfl⟩
  obtain ⟨B, hB⟩ : ∃ B, (b8 * 31 + T) / 255 = B := ⟨_, rfl⟩
  simp only [hR, hG, hB] at hpix hr5 hg6 hb5 ⊢
  clear hR hG hB
  refine ⟨?_, ?_, ?_, hr5, hg6, hb5⟩ <;> omega

/-- C5 witness: the pack evaluated at pixel (1, 2) with accumulator
(10, 20, 30); `T = bayerBias[2][1] = 184`. -/
theorem pack565_spec_witness :
    (10 : Nat) < 256 ∧ (20 : Nat) < 256 ∧ (30 : Nat) < 256 ∧
    (pack565 1 2 10 20 30 % 32 = (10 * 31 + bayerBias (2 % 4) (1 % 4)) / 255 ∧
     pack565 1 2 10 20 30 / 32 % 64 = (20 * 63 + bayerBias (2 % 4) (1 % 4)) / 255 ∧
     pack565 1 2 10 20 30 / 2048 = (30 * 31 + bayerBias (2 % 4) (1 % 4)) / 255 ∧
     (10 * 31 + bayerBias (2 % 4) (1 % 4)) / 255 ≤ 31 ∧
     (20 * 63 + bayerBias (2 % 4) (1 % 4)) / 255 ≤ 63 ∧
     (30 * 31 + bayerBias (2 % 4) (1 % 4)) / 255 ≤ 31) :=
  ⟨by decide, by decide, by decide,
    pack565_spec 1 2 10 20 30 (by decide) (by decide) (by decide)⟩

/-! ### C6 - twiddle table additivity -/

/-- The loop of `twiddle_slow` produces 0 on the all-zero coordinates. -/
theorem twLoop_zero (A B sh : Nat) : twLoop 0 0 A B sh = 0 := by
  have key : ∀ n A B sh, A + B ≤ n → twLoop 0 0 A B sh = 0 := by
    intro n
    induction n with
    | zero =>
      intro A B sh h
      have hA : A = 0 := by omega
      have hB : B = 0 := by omega
      subst hA; subst hB
      rw [twLoop]
      simp
    | succ n ih =>
      intro A B sh h
      rw [twLoop]
      by_cases hAB : A = 0 ∧ B = 0
      · simp [hAB]
      · have hrec : ∀ sh2, twLoop 0 0 (A >>> 1) (B >>> 1) sh2 = 0 := by
          intro sh2
          apply ih
          simp only [Nat.shiftRight_one]
          omega
        simp only [if_neg hAB]
        simp [hrec]
  exact key (A + B) A B sh le_rfl

/-- The shift accumulator of the twiddle loop only scales the result. -/
theorem twLoop_sh (x y A B sh : Nat) : twLoop x y A B sh = 2 ^ sh * twLoop x y A B 0 := by
  have key : ∀ n x y A B sh, A + B ≤ n → twLoop x y A B sh = 2 ^ sh * twLoop x y A B 0 := by
    intro n
    induction n with
    | zero =>
      intro x y A B sh h
      have hA : A = 0 := by omega
      have hB : B = 0 := by omega
      subst hA; subst hB
      rw [twLoop, twLoop]; simp
    | succ n ih =>
      intro x y A B sh h
      have hhalf : A >>> 1 + B >>> 1 ≤ n := by
        simp only [Nat.shiftRight_one]
        omega
      by_cases hA : A = 0
      · by_cases hB : B = 0
        · subst hA; subst hB; rw [twLoop, twLoop]; simp
        · rw [twLoop, twLoop]
          simp only [hA, hB, if_true, if_false, ite_true, ite_false, ne_eq,
            not_true, not_false_iff, true_and, false_and, and_false, if_neg,
            not_false_eq_true, Nat.shiftLeft_eq, Nat.zero_or, Nat.or_zero,
            Nat.pow_zero, Nat.one_mul, Nat.zero_shiftRight]
          rw [ih x (y >>> 1) 0 (B >>> 1) (sh + 1) (by simpa [hA] using hhalf),
            ih x (y >>> 1) 0 (B >>> 1) (0 + 1) (by simpa [hA] using hhalf),
            mul_two_pow_lor]
          congr 1 <;> ring
      · by_cases hB : B = 0
        · rw [twLoop, twLoop]
          simp only [hA, hB, if_true, if_false, ite_true, ite_false, ne_eq,
            not_true, not_false_iff, true_and, false_and, and_false, if_neg,
            not_false_eq_true, and_true, Nat.shiftLeft_eq, Nat.zero_or, Nat.or_zero,
            Nat.pow_zero, Nat.one_mul, Nat.zero_shiftRight]
          rw [ih (x >>> 1) y (A >>> 1) 0 (sh + 1) (by simpa [hB] using hhalf),
            ih (x >>> 1) y (A >>> 1) 0 (0 + 1) (by simpa [hB] using hhalf),
            mul_two_pow_lor]
          congr 1 <;> ring
        · rw [twLoop, twLoop]
          simp only [hA, hB, if_true, if_false, ite_true, ite_false, ne_eq,
            not_true, not_false_iff, true_and, false_and, and_false, if_neg,
            not_false_eq_true, and_true, Nat.shiftLeft_eq, Nat.zero_or, Nat.or_zero,
            Nat.pow_zero, Nat.one_mul, Nat.zero_shiftRight]
          rw [ih (x >>> 1) (y >>> 1) (A >>> 1) (B >>> 1) (sh + 1 + 1) hhalf,
            ih (x >>> 1) (y >>> 1) (A >>> 1) (B >>> 1) (0 + 1 + 1) hhalf,
            mul_two_pow_lor, mul_two_pow_lor]
          congr 1
          · congr 1 <;> ring
          · ring
  exact key (A + B) x y A B sh le_rfl

/-- Halving a positive power of two drops one exponent. -/
theorem pow_succ_shiftRight (k : Nat) : (2 : Nat) ^ (k + 1) >>> 1 = 2 ^ k := by
  rw [Nat.shiftRight_one, Nat.pow_succ, Nat.mul_div_cancel _ (by norm_num)]

theorem twLoop_step (x y A B sh : Nat) (hA : A ≠ 0) (hB : B ≠ 0) :
    twLoop x y A B sh =
      ((y &&& 1) <<< sh ||| (x &&& 1) <<< (sh + 1)) |||
        twLoop (x >>> 1) (y >>> 1) (A >>> 1) (B >>> 1) (sh + 2) := by
  rw [twLoop]
  simp [hA, hB]

theorem twLoop_stepX (x y A sh : Nat) (hA : A ≠ 0) :
    twLoop x y A 0 sh =
      (x &&& 1) <<< sh ||| twLoop (x >>> 1) y (A >>> 1) 0 (sh + 1) := by
  rw [twLoop]
  simp [hA]

theorem twLoop_stepY (x y B sh : Nat) (hB : B ≠ 0) :
    twLoop x y 0 B sh =
      (y &&& 1) <<< sh ||| twLoop x (y >>> 1) 0 (B >>> 1) (sh + 1) := by
  rw [twLoop]
  simp [hB]

/-- Interleaving additivity of the twiddle loop over power-of-two sizes: the
row projection (y = 0) and the column projection (x = 0) occupy disjoint bit
positions, and their sum equals the full interleaving; the extra horizontal
or vertical size slots beyond `s` slots are never consumed when the
coordinate is below `2 ^ s`. -/
theorem twKey : ∀ s i j a b, i < 2 ^ s → j < 2 ^ s → s ≤ a + 1 → s ≤ b + 1 →
    twLoop i 0 (2 ^ a) (2 ^ s >>> 1) 0 + twLoop 0 j (2 ^ s >>> 1) (2 ^ b) 0 =
    twLoop i j (2 ^ s >>> 1) (2 ^ s >>> 1) 0 := by
  intro s
  induction s with
  | zero =>
    intro i j a b hi hj ha hb
    have hi0 : i = 0 := by omega
    have hj0 : j = 0 := by omega
    subst hi0; subst hj0
    simp [twLoop_zero]
  | succ s ih =>
    intro i j a b hi hj ha hb
    rw [pow_succ_shiftRight]
    have h2a : (2 : Nat) ^ a ≠ 0 := (Nat.two_pow_pos a).ne.symm
    have h2b : (2 : Nat) ^ b ≠ 0 := (Nat.two_pow_pos b).ne.symm
    have h2s : (2 : Nat) ^ s ≠ 0 := (Nat.two_pow_pos s).ne.symm
    have hand1 : ∀ m : Nat, m &&& 1 = m % 2 := fun m => Nat.and_one_is_mod m
    rcases Nat.eq_zero_or_pos s with hs0 | hs1
    · subst hs0
      have hi1 : i >>> 1 = 0 := by
        simp only [Nat.shiftRight_one]; omega
      have hj1 : j >>> 1 = 0 := by
        simp only [Nat.shiftRight_one]; omega
      rw [show (2 : Nat) ^ 0 = 1 from rfl, twLoop_step i 0 (2 ^ a) 1 0 h2a one_ne_zero,
        twLoop_step 0 j 1 (2 ^ b) 0 one_ne_zero h2b,
        twLoop_step i j 1 1 0 one_ne_zero one_ne_zero]
      simp only [hi1, hj1, Nat.zero_shiftRight, Nat.zero_and, Nat.zero_shiftLeft,
        Nat.zero_or, Nat.or_zero, Nat.shiftLeft_eq, Nat.pow_zero, Nat.one_mul,
        Nat.pow_one, show (1 : Nat) >>> 1 = 0 from rfl, twLoop_zero]
      simp only [show (2 : Nat) ^ (0 + 1) = 2 from rfl, Nat.mul_one, Nat.zero_mul,
        Nat.zero_or, Nat.or_zero]
      have hor : j &&& 1 ||| (i &&& 1) * 2 = (j &&& 1) + (i &&& 1) * 2 := by
        have h := lor_mul_two_pow_eq_add (a := j &&& 1) 1 (i &&& 1)
          (by rw [hand1]; omega)
        rw [Nat.pow_one, Nat.mul_comm 2] at h
        exact h
      rw [hor]
      omega
    · obtain ⟨a1, rfl⟩ : ∃ a1, a = a1 + 1 := ⟨a - 1, by omega⟩
      obtain ⟨b1, rfl⟩ : ∃ b1, b = b1 + 1 := ⟨b - 1, by omega⟩
      have hpow : (2 : Nat) ^ (s + 1) = 2 * 2 ^ s := by ring
      rw [twLoop_step i 0 (2 ^ (a1 + 1)) (2 ^ s) 0 h2a h2s,
        twLoop_step 0 j (2 ^ s) (2 ^ (b1 + 1)) 0 h2s h2b,
        twLoop_step i j (2 ^ s) (2 ^ s) 0 h2s h2s]
      simp only [Nat.zero_and, Nat.zero_shiftLeft, Nat.zero_shiftRight, Nat.zero_or,
        Nat.or_zero, Nat.zero_add, Nat.shiftLeft_eq, Nat.pow_zero, Nat.one_mul,
        Nat.pow_one, pow_succ_shiftRight]
      rw [twLoop_sh (i >>> 1) 0 (2 ^ a1) (2 ^ s >>> 1) 2,
        twLoop_sh 0 (j >>> 1) (2 ^ s >>> 1) (2 ^ b1) 2,
        twLoop_sh (i >>> 1) (j >>> 1) (2 ^ s >>> 1) (2 ^ s >>> 1) 2]
      simp only [Nat.zero_mul, Nat.mul_one, Nat.zero_or, Nat.or_zero]
      have hIH : twLoop (i >>> 1) 0 (2 ^ a1) (2 ^ s >>> 1) 0 +
          twLoop 0 (j >>> 1) (2 ^ s >>> 1) (2 ^ b1) 0 =
          twLoop (i >>> 1) (j >>> 1) (2 ^ s >>> 1) (2 ^ s >>> 1) 0 :=
        ih (i >>> 1) (j >>> 1) a1 b1
          (by simp only [Nat.shiftRight_one]; omega)
          (by simp only [Nat.shiftRight_one]; omega)
          (by omega) (by omega)
      have e1 : (i &&& 1) * 2 ||| 2 ^ 2 * twLoop (i >>> 1) 0 (2 ^ a1) (2 ^ s >>> 1) 0 =
          (i &&& 1) * 2 + 2 ^ 2 * twLoop (i >>> 1) 0 (2 ^ a1) (2 ^ s >>> 1) 0 :=
        lor_mul_two_pow_eq_add 2 _ (by rw [hand1]; omega)
      have e2 : j &&& 1 ||| 2 ^ 2 * twLoop 0 (j >>> 1) (2 ^ s >>> 1) (2 ^ b1) 0 =
          (j &&& 1) + 2 ^ 2 * twLoop 0 (j >>> 1) (2 ^ s >>> 1) (2 ^ b1) 0 :=
        lor_mul_two_pow_eq_add 2 _ (by rw [hand1]; omega)
      have e3 : j &&& 1 ||| (i &&& 1) * 2 = (j &&& 1) + (i &&& 1) * 2 := by
        have h := lor_mul_two_pow_eq_add (a := j &&& 1) 1 (i &&& 1)
          (by rw [hand1]; omega)
        rw [Nat.pow_one, Nat.mul_comm 2] at h
        exact h
      have e4 : (j &&& 1) + (i &&& 1) * 2 |||
          2 ^ 2 * twLoop (i >>> 1) (j >>> 1) (2 ^ s >>> 1) (2 ^ s >>> 1) 0 =
          (j &&& 1) + (i &&& 1) * 2 +
          2 ^ 2 * twLoop (i >>> 1) (j >>> 1) (2 ^ s >>> 1) (2 ^ s >>> 1) 0 :=
        lor_mul_two_pow_eq_add 2 _ (by rw [hand1, hand1]; omega)
      rw [e1, e2, e3, e4]
      omega

/-- C6: for every square log-size `s` up to 10 and coordinates below `2 ^ s`,
the sum of the two `detwiddle` table projections filled by `InitTexUtils`
equals `twiddle_slow(i, j, 1 << s, 1 << s)`. -/
theorem detwiddle_additive (s i j : Nat) (hs : s ≤ 10) (hi : i < 2 ^ s) (hj : j < 2 ^ s) :
    detwiddle0 s i + detwiddle1 s j = twiddle_slow i j (1 <<< s) (1 <<< s) := by
  have h1s : (1 : Nat) <<< s = 2 ^ s := by rw [Nat.shiftLeft_eq, Nat.one_mul]
  show twLoop i 0 (1024 >>> 1) ((1 <<< s) >>> 1) 0 +
      twLoop 0 j ((1 <<< s) >>> 1) (1024 >>> 1) 0 =
      twLoop i j ((1 <<< s) >>> 1) ((1 <<< s) >>> 1) 0
  rw [h1s, show (1024 : Nat) >>> 1 = 2 ^ 9 from by decide]
  exact twKey s i j 9 9 hi hj (by omega) (by omega)

/-- C6 witness: the additivity at `s = 3`, `i = 5`, `j = 6`. -/
theorem detwiddle_additive_witness :
    (3 : Nat) ≤ 10 ∧ (5 : Nat) < 2 ^ 3 ∧ (6 : Nat) < 2 ^ 3 ∧
    detwiddle0 3 5 + detwiddle1 3 6 = twiddle_slow 5 6 (1 <<< 3) (1 <<< 3) :=
  ⟨by decide, by decide, by decide,
    detwiddle_additive 3 5 6 (by decide) (by decide) (by decide)⟩

/-! ### C7 — bump-map table rounding vs truncation -/

/-- The product stored at `BM_SIN90[1]` lies strictly between 1/2 and 1. -/
theorem bm_sin1_bounds :
    1 / 2 < 127 * Real.sin ((1 : ℝ) / 256 * (Real.pi / 2)) ∧
    127 * Real.sin ((1 : ℝ) / 256 * (Real.pi / 2)) < 1 := by
  have hx : (1 : ℝ) / 256 * (Real.pi / 2) = Real.pi / 512 := by ring
  rw [hx]
  have hpl : (3.141592 : ℝ) < Real.pi := Real.pi_gt_d6
  have hpu : Real.pi < 3.15 := Real.pi_lt_d2
  have hxpos : (0 : ℝ) < Real.pi / 512 := by linarith
  have hxle : Real.pi / 512 ≤ 1 := by linarith
  have hs_lt : Real.sin (Real.pi / 512) < Real.pi / 512 := Real.sin_lt hxpos
  have hs_gt : Real.pi / 512 - (Real.pi / 512) ^ 3 / 4 < Real.sin (Real.pi / 512) :=
    Real.sin_gt_sub_cube hxpos hxle
  have hcube : (Real.pi / 512) ^ 3 < (3.15 / 512) ^ 3 := by
    apply pow_lt_pow_left₀ _ (le_of_lt hxpos)
    · norm_num
    · linarith
  constructor
  · nlinarith
  · nlinarith

/-- The C conversion truncates `BM_SIN90[1]` to 0. -/
theorem bm_sin1_trunc :
    cTruncStores (127 * Real.sin ((1 : ℝ) / 256 * (Real.pi / 2))) 0 := by
  obtain ⟨hl, hu⟩ := bm_sin1_bounds
  constructor
  · intro h
    rw [eq_comm, Int.floor_eq_zero_iff]
    constructor
    · linarith
    · simpa using hu
  · intro h
    linarith

/-- The specified rounding of the `BM_SIN90[1]` product is 1. -/
theorem bm_sin1_round :
    round (127 * Real.sin ((1 : ℝ) / 256 * (Real.pi / 2))) = 1 := by
  obtain ⟨hl, hu⟩ := bm_sin1_bounds
  rw [round_eq, Int.floor_eq_iff]
  constructor
  · push_cast
    linarith
  · push_cast
    linarith

/-- C7, counterexample: at index 1 the product `127 * sin(1/256 * pi/2)`
(about 0.779) is truncated toward zero by the `int8_t` conversion, storing 0;
the claim's rounded value would be 1, so the stored byte is not the rounded
product. -/
theorem bm_sin90_trunc_ne_round :
    bmSin90Product 1 (127 * Real.sin ((1 : ℝ) / 256 * (Real.pi / 2))) ∧
    cTruncStores (127 * Real.sin ((1 : ℝ) / 256 * (Real.pi / 2))) 0 ∧
    ¬ roundStores (127 * Real.sin ((1 : ℝ) / 256 * (Real.pi / 2))) 0 := by
  refine ⟨by simp [bmSin90Product], bm_sin1_trunc, ?_⟩
  intro h
  rw [roundStores, eq_comm, bm_sin1_round] at h
  exact absurd h (by decide)

/-- C7, amended: the stored bump-map bytes are the C float-to-integer
truncations toward zero of the products, not the rounded values; rounding and
truncation genuinely differ on this data: at index 1 the `BM_SIN90` product
truncates to 0 while rounding gives 1. -/
theorem bm_sin90_truncated :
    bmSin90Product 1 (127 * Real.sin ((1 : ℝ) / 256 * (Real.pi / 2))) ∧
    cTruncStores (127 * Real.sin ((1 : ℝ) / 256 * (Real.pi / 2))) 0 ∧
    roundStores (127 * Real.sin ((1 : ℝ) / 256 * (Real.pi / 2))) 1 ∧
    (0 : ℤ) ≠ 1 := by
  exact ⟨by simp [bmSin90Product], bm_sin1_trunc, (bm_sin1_round).symm, by decide⟩

/-! ### C3 - triangle-strip mask decoding -/

/-- The built parameter tag carries its 3-bit tag offset in bits 0..2. -/
theorem coreTag_mod8 (cb sh sk offs t : Nat) :
    CoreTagFromDesc cb sh sk offs t % 8 = t % 8 := by
  unfold CoreTagFromDesc
  omega

/-- Membership characterization of the strip emission loop: a triangle
record is emitted exactly for loop indices `j < 6` whose mask bit `5 - j` is
set, with the vertex indices `(j + parity, j + 1 - parity, j + 2)` where
`parity = j & 1`. -/
theorem strip_mem_iff (cb w : Nat) (t : StripTri) :
    t ∈ RenderTriangleStrip cb w ↔
    ∃ j < 6, (tstrip_mask w).testBit (5 - j) ∧
      t = ⟨CoreTagFromDesc cb (tstrip_shadow w) (tstrip_skip w) (tstrip_param_offs w) j,
           j + j % 2, j + (1 - j % 2), j + 2⟩ := by
  unfold RenderTriangleStrip
  rw [List.mem_filterMap]
  have hcond : ∀ j : Nat, (tstrip_mask w &&& 1 <<< (5 - j) ≠ 0) ↔
      (tstrip_mask w).testBit (5 - j) := by
    intro j
    rw [Nat.one_shiftLeft, Nat.and_two_pow]
    rcases h : (tstrip_mask w).testBit (5 - j) <;> simp [h]
  have hvx : ∀ j : Nat, j % 2 ^^^ 1 = 1 - j % 2 := by
    intro j
    rcases Nat.mod_two_eq_zero_or_one j with h | h <;> rw [h] <;> decide
  constructor
  · rintro ⟨j, hj, hf⟩
    rw [List.mem_range] at hj
    by_cases hc : tstrip_mask w &&& 1 <<< (5 - j) ≠ 0
    · rw [if_pos hc] at hf
      refine ⟨j, hj, (hcond j).mp hc, ?_⟩
      have := hf
      simp only [Option.some.injEq] at this
      rw [← this, Nat.and_one_is_mod, hvx]
    · rw [if_neg hc] at hf
      exact absurd hf (by simp)
  · rintro ⟨j, hj, hbit, rfl⟩
    refine ⟨j, List.mem_range.mpr hj, ?_⟩
    rw [if_pos ((hcond j).mpr hbit)]
    simp only [Option.some.injEq]
    rw [Nat.and_one_is_mod, hvx]

/-- C3, amended: in triangle-strip decoding, for every strip word and every
candidate index `i` in `0..5`, a triangle with `tag_offset = i` is emitted if
and only if mask bit `5 - i` (not bit `i`) is set; its vertices are taken at
indices `(i + parity, i + 1 - parity, i + 2)` with `parity = i & 1`, and the
tag carries `tag_offset = i` in its low three bits. -/
theorem strip_mask_emission (cb w i : Nat) (hi : i < 6) :
    ((∃ t ∈ RenderTriangleStrip cb w, t.tag % 8 = i) ↔
      (tstrip_mask w).testBit (5 - i)) ∧
    (∀ t ∈ RenderTriangleStrip cb w, t.tag % 8 = i →
      t.v1 = i + i % 2 ∧ t.v2 = i + (1 - i % 2) ∧ t.v3 = i + 2) := by
  constructor
  · constructor
    · rintro ⟨t, ht, htag⟩
      rw [strip_mem_iff] at ht
      obtain ⟨j, hj, hbit, rfl⟩ := ht
      have h1 := coreTag_mod8 cb (tstrip_shadow w) (tstrip_skip w) (tstrip_param_offs w) j
      have h2 : CoreTagFromDesc cb (tstrip_shadow w) (tstrip_skip w)
          (tstrip_param_offs w) j % 8 = i := htag
      have hji : j = i := by omega
      subst hji
      exact hbit
    · intro hbit
      refine ⟨⟨CoreTagFromDesc cb (tstrip_shadow w) (tstrip_skip w)
        (tstrip_param_offs w) i, i + i % 2, i + (1 - i % 2), i + 2⟩, ?_, ?_⟩
      · exact (strip_mem_iff cb w _).mpr ⟨i, hi, hbit, rfl⟩
      · have h1 := coreTag_mod8 cb (tstrip_shadow w) (tstrip_skip w)
          (tstrip_param_offs w) i
        show CoreTagFromDesc cb (tstrip_shadow w) (tstrip_skip w)
          (tstrip_param_offs w) i % 8 = i
        omega
  · rintro t ht htag
    rw [strip_mem_iff] at ht
    obtain ⟨j, hj, hbit, rfl⟩ := ht
    have h1 := coreTag_mod8 cb (tstrip_shadow w) (tstrip_skip w) (tstrip_param_offs w) j
    have h2 : CoreTagFromDesc cb (tstrip_shadow w) (tstrip_skip w)
        (tstrip_param_offs w) j % 8 = i := htag
    have hji : j = i := by omega
    subst hji
    exact ⟨rfl, rfl, rfl⟩

/-- C3, counterexample: a strip word with mask `0b000001` (bit 0 set) emits
exactly one triangle, the one at position 5 (tag offset 5, vertices 6, 5, 7);
no emitted triangle has tag offset 0, though the claim says mask bit 0 emits
triangle 0. -/
theorem strip_mask_reversed :
    RenderTriangleStrip 0 0x2000000 = [⟨5, 6, 5, 7⟩] ∧
    ((RenderTriangleStrip 0 0x2000000).all fun t => decide (t.tag % 8 ≠ 0)) = true := by
  constructor
  · decide
  · decide

/-- C3 witness: the amended statement at mask bit 3 selecting triangle 2. -/
theorem strip_mask_emission_witness :
    (2 : Nat) < 6 ∧
    (((∃ t ∈ RenderTriangleStrip 0 (2 ^ 28), t.tag % 8 = 2) ↔
        (tstrip_mask (2 ^ 28)).testBit (5 - 2)) ∧
     (∀ t ∈ RenderTriangleStrip 0 (2 ^ 28), t.tag % 8 = 2 →
        t.v1 = 2 + 2 % 2 ∧ t.v2 = 2 + (1 - 2 % 2) ∧ t.v3 = 2 + 2)) :=
  ⟨by decide, strip_mask_emission 0 (2 ^ 28) 2 (by decide)⟩

/-! ### Render-model structural lemmas -/

/-- An object-list walk only appends to its event accumulator. -/
theorem renderObjList_evs_extend {σ : Type} (B : TileBackend σ) (vram : Vram)
    (mode : RenderMode) :
    ∀ fuel base st evs st2 evs2,
      RenderObjectList B vram mode fuel base st evs = some (st2, evs2) →
      ∃ t, evs2 = evs ++ t := by
  intro fuel
  induction fuel with
  | zero =>
    intro base st evs st2 evs2 h
    simp [RenderObjectList] at h
  | succ fuel ih =>
    intro base st evs st2 evs2 h
    simp only [RenderObjectList] at h
    split at h
    · obtain ⟨t, ht⟩ := ih _ _ _ _ _ h
      exact ⟨_, by rw [ht, List.append_assoc]⟩
    · split at h
      · split at h
        · simp only [Option.some.injEq, Prod.mk.injEq] at h
          exact ⟨[], by simp [h.2.symm]⟩
        · exact ih _ _ _ _ _ h
      · split at h
        · obtain ⟨t, ht⟩ := ih _ _ _ _ _ h
          exact ⟨_, by rw [ht, List.append_assoc]⟩
        · split at h
          · obtain ⟨t, ht⟩ := ih _ _ _ _ _ h
            exact ⟨_, by rw [ht, List.append_assoc]⟩
          · obtain ⟨t, ht⟩ := ih _ _ _ _ _ h
            exact ⟨_, by rw [ht, List.append_assoc]⟩

/-- The punch-through peel loop only appends to its event accumulator. -/
theorem ptPeelLoop_evs_extend {σ : Type} (B : TileBackend σ) (vram : Vram)
    (ptBase : Nat) :
    ∀ fuel st evs st2 evs2,
      ptPeelLoop B vram ptBase fuel st evs = some (st2, evs2) →
      ∃ t, evs2 = evs ++ t := by
  intro fuel
  induction fuel with
  | zero =>
    intro st evs st2 evs2 h
    simp [ptPeelLoop] at h
  | succ fuel ih =>
    intro st evs st2 evs2 h
    simp only [ptPeelLoop] at h
    split at h
    · split at h
      · exact absurd h (by simp)
      · rename_i st1 evs1 heq
        obtain ⟨t1, ht1⟩ := renderObjList_evs_extend B vram .ptPassN fuel _ _ _ _ _ heq
        split at h
        · simp only [Option.some.injEq, Prod.mk.injEq] at h
          exact ⟨t1, by rw [← h.2, ht1]⟩
        · obtain ⟨t2, ht2⟩ := ih _ _ _ _ h
          exact ⟨_, by rw [ht2, ht1, List.append_assoc, List.append_assoc]⟩
    · simp only [Option.some.injEq, Prod.mk.injEq] at h
      exact ⟨[], by simp [h.2.symm]⟩

/-- The translucent auto-sort peel loop only appends to its event
accumulator. -/
theorem trPeelLoop_evs_extend {σ : Type} (B : TileBackend σ) (vram : Vram)
    (trBase trModBase : Nat) (hasMod : Bool) :
    ∀ fuel st evs st2 evs2,
      trPeelLoop B vram trBase trModBase hasMod fuel st evs = some (st2, evs2) →
      ∃ t, evs2 = evs ++ t := by
  intro fuel
  induction fuel with
  | zero =>
    intro st evs st2 evs2 h
    simp [trPeelLoop] at h
  | succ fuel ih =>
    intro st evs st2 evs2 h
    simp only [trPeelLoop] at h
    split at h
    · exact absurd h (by simp)
    · rename_i st1 evs1 heq1
      obtain ⟨t1, ht1⟩ := renderObjList_evs_extend B vram .trAutosort fuel _ _ _ _ _ heq1
      split at h
      · exact absurd h (by simp)
      · rename_i st2' evs2' heq2
        have hmod : ∃ t, evs2' = evs1 ++ t := by
          rcases hasMod with _ | _
          · simp only [Bool.false_eq_true, if_false, Option.some.injEq,
              Prod.mk.injEq] at heq2
            exact ⟨[], by simp [heq2.2.symm]⟩
          · simp only [if_true] at heq2
            exact renderObjList_evs_extend B vram .modVol fuel _ _ _ _ _ heq2
        obtain ⟨t2, ht2⟩ := hmod
        split at h
        · obtain ⟨t3, ht3⟩ := ih _ _ _ _ h
          refine ⟨t1 ++ t2 ++ [.paramTags .trAutosort] ++ t3, ?_⟩
          rw [ht3, ht2, ht1]
          simp
        · simp only [Option.some.injEq, Prod.mk.injEq] at h
          refine ⟨t1 ++ t2 ++ [.paramTags .trAutosort], ?_⟩
          rw [← h.2, ht2, ht1]
          simp
/-- C10: the opaque tag-resolution pass runs even when the entry's opaque
object-list pointer is empty: processing any region entry whose opaque list
pointer carries the `empty` flag still records the
`RenderParamTags<RM_OPAQUE>` invocation (the call sits outside the
`if (!entry.opaque.empty)` block in `RenderCORE`), so the background is shaded
for every tile. -/
theorem opaque_tags_always {σ : Type} (B : TileBackend σ) (regs : RegFile)
    (vram : Vram) (st : σ) (fuel : Nat) (e : RegionArrayEntry)
    (h : lp_empty e.opq = 1) :
    PassEvent.paramTags .op ∈ (processEntry B regs fuel vram st e).1 := by
  simp only [processEntry, h]
  norm_num
  split
  · simp
  · rename_i st2 evs2 heq
    have h2 : ∃ t, evs2 = [PassEvent.paramTags .op] ++ t := by
      split at heq
      · split at heq
        · exact absurd heq (by simp)
        · rename_i st1 evs1 heq1
          obtain ⟨t1, ht1⟩ :=
            renderObjList_evs_extend B vram .ptPass0 fuel _ _ _ _ _ heq1
          split at heq
          · exact absurd heq (by simp)
          · rename_i stp evsp heqp
            obtain ⟨t2, ht2⟩ := ptPeelLoop_evs_extend B vram _ fuel _ _ _ _ heqp
            split at heq
            · split at heq
              · exact absurd heq (by simp)
              · rename_i stm evsm heqm
                obtain ⟨t3, ht3⟩ :=
                  renderObjList_evs_extend B vram .modVol fuel _ _ _ _ _ heqm
                simp only [Option.some.injEq, Prod.mk.injEq] at heq
                refine ⟨t1 ++ [.paramTags .ptPass0] ++ t2 ++ t3 ++ [.paramTags .ptMV], ?_⟩
                rw [← heq.2, ht3, ht2, ht1]
                simp
            · simp only [Option.some.injEq, Prod.mk.injEq] at heq
              refine ⟨t1 ++ [.paramTags .ptPass0] ++ t2, ?_⟩
              rw [← heq.2, ht2, ht1]
              simp
      · simp only [Option.some.injEq, Prod.mk.injEq] at heq
        exact ⟨[], by simp [heq.2.symm]⟩
    obtain ⟨t2, ht2⟩ := h2
    split
    · simp [ht2]
    · rename_i st3 evs3 heq3
      have h3 : ∃ t, evs3 = [PassEvent.paramTags .op] ++ t := by
        split at heq3
        · split at heq3
          · obtain ⟨t3, ht3⟩ :=
              trPeelLoop_evs_extend B vram _ _ _ fuel _ _ _ _ heq3
            exact ⟨t2 ++ t3, by rw [ht3, ht2]; simp⟩
          · obtain ⟨t3, ht3⟩ :=
              renderObjList_evs_extend B vram .trPresort fuel _ _ _ _ _ heq3
            exact ⟨t2 ++ t3, by rw [ht3, ht2]; simp⟩
        · simp only [Option.some.injEq, Prod.mk.injEq] at heq3
          exact ⟨t2, by rw [← heq3.2, ht2]⟩
      obtain ⟨t3, ht3⟩ := h3
      split
      · split
        · simp [ht3]
        · simp [ht3]
      · simp [ht3]

/-- `last_region` is a single bit. -/
theorem ctrl_last_region_lt (c : Nat) : ctrl_last_region c < 2 :=
  Nat.mod_lt _ (by norm_num)

/-- The region step returned with each decoded entry is the global one. -/
theorem readRegionArrayEntry_snd (regs : RegFile) (vram : Vram) (base : Nat) :
    (ReadRegionArrayEntry regs vram base).2 = regionStep regs := by
  unfold ReadRegionArrayEntry regionStep
  split <;> rfl

/-- Under an unsupported configuration the writeback always aborts with
`ConfigurationUnsupported`. -/
theorem writeTile_unsupported {σ : Type} (B : TileBackend σ) (regs : RegFile)
    (st : σ) (control : Nat) (vram : Vram) (hu : UnsupportedConfig regs) :
    writeTile B regs st control vram = .error .ConfigurationUnsupported := by
  unfold writeTile
  unfold UnsupportedConfig at hu
  split_ifs <;> first
  | rfl
  | (exfalso; rcases hu with h | h | h | h <;> simp_all)

/-- Under a supported configuration the writeback never aborts. -/
theorem writeTile_ne_error {σ : Type} (B : TileBackend σ) (regs : RegFile)
    (st : σ) (control : Nat) (vram : Vram) (hu : ¬ UnsupportedConfig regs)
    (err : RenderError) : writeTile B regs st control vram ≠ .error err := by
  unfold UnsupportedConfig at hu
  push_neg at hu
  unfold writeTile
  split_ifs <;> simp_all

/-- A writeback abort always carries `ConfigurationUnsupported` and only
happens under an unsupported configuration. -/
theorem writeTile_error_eq {σ : Type} (B : TileBackend σ) (regs : RegFile)
    (st : σ) (control : Nat) (vram : Vram) (err : RenderError)
    (h : writeTile B regs st control vram = .error err) :
    err = .ConfigurationUnsupported ∧ UnsupportedConfig regs := by
  by_cases hu : UnsupportedConfig regs
  · rw [writeTile_unsupported B regs st control vram hu] at h
    simp only [Except.error.injEq] at h
    exact ⟨h.symm, hu⟩
  · exact absurd h (writeTile_ne_error B regs st control vram hu err)

set_option maxHeartbeats 4000000 in
/-- An entry whose processing returns an error returns
`ConfigurationUnsupported`, and only under an unsupported configuration. -/
theorem processEntry_error_eq {σ : Type} (B : TileBackend σ) (regs : RegFile)
    (fuel : Nat) (vram : Vram) (st : σ) (e : RegionArrayEntry)
    (evs : List PassEvent) (err : RenderError)
    (h : processEntry B regs fuel vram st e = (evs, some (.error err))) :
    err = .ConfigurationUnsupported ∧ UnsupportedConfig regs := by
  unfold processEntry at h
  simp only [] at h
  repeat' split at h
  all_goals first
    | (rename_i e' heq
       simp only [Prod.mk.injEq, Option.some.injEq, Except.error.injEq] at h
       exact h.2 ▸ writeTile_error_eq B regs _ _ vram _ heq)
    | simp at h

/-- Under an unsupported configuration, processing any entry with
`no_writeout` clear either runs out of fuel or aborts with
`ConfigurationUnsupported`: the writeback is reached and its asserts fire. -/
theorem processEntry_unsupported_error {σ : Type} (B : TileBackend σ) (regs : RegFile)
    (fuel : Nat) (vram : Vram) (st : σ) (e : RegionArrayEntry)
    (evs : List PassEvent) (o : Except RenderError (σ × Vram))
    (hu : UnsupportedConfig regs) (hnw : ctrl_no_writeout e.control = 0)
    (h : processEntry B regs fuel vram st e = (evs, some o)) :
    o = .error .ConfigurationUnsupported := by
  unfold processEntry at h
  simp only [] at h
  repeat' split at h
  all_goals first
    | (rename_i heq
       rw [writeTile_unsupported B regs _ e.control vram hu] at heq
       simp_all)
    | simp_all

/-- Any error escaping the region-array loop is `ConfigurationUnsupported`,
and only an unsupported configuration produces one. -/
theorem RenderCOREloop_error_eq {σ : Type} (B : TileBackend σ) (regs : RegFile) :
    ∀ fuel vram st base err,
      RenderCOREloop B regs fuel vram st base = some (.error err) →
      err = .ConfigurationUnsupported ∧ UnsupportedConfig regs := by
  intro fuel
  induction fuel with
  | zero => intro vram st base err h; exact absurd h (by simp [RenderCOREloop])
  | succ n ih =>
    intro vram st base err h
    simp only [RenderCOREloop] at h
    split at h
    · exact absurd h (by simp)
    · rename_i heq
      simp only [Option.some.injEq, Except.error.injEq] at h
      subst h
      exact processEntry_error_eq B regs n vram st _ _ _ heq
    · split at h
      · exact ih _ _ _ _ h
      · exact absurd h (by simp)

/-- C8, amended: an abort of `RenderCORE` always carries the
`ConfigurationUnsupported` error and only happens under an unsupported
register configuration (`fb_packmode` outside `{1,6}`, `hscale` nonzero,
`interlace` nonzero, or `vscalefactor` outside `{0x400,0x401,0x800}`); and
conversely, under an unsupported configuration any entry whose `no_writeout`
flag is clear — i.e. whose writeback is actually reached — aborts with
exactly that error.  (An unsupported configuration alone does not abort a
frame whose entries all skip the writeback; see the counterexample.) -/
theorem render_abort_only_config {σ : Type} (B : TileBackend σ) (regs : RegFile)
    (vram : Vram) (st : σ) (fuel : Nat) :
    (∀ err, RenderCORE B regs vram st fuel = some (.error err) →
       err = .ConfigurationUnsupported ∧ UnsupportedConfig regs) ∧
    (∀ e st' evs o, UnsupportedConfig regs → ctrl_no_writeout e.control = 0 →
       processEntry B regs fuel vram st' e = (evs, some o) →
       o = .error .ConfigurationUnsupported) := by
  refine ⟨fun err h => RenderCOREloop_error_eq B regs fuel vram st _ err h,
          fun e st' evs o hu hnw h =>
            processEntry_unsupported_error B regs fuel vram st' e evs o hu hnw h⟩

/-- C8, counterexample to the unqualified claim: the all-zero register file is
an unsupported configuration, yet a frame whose only region entry sets
`no_writeout` renders to completion without any error. -/
theorem render_unsupported_completes :
    UnsupportedConfig regs0 ∧ resultOk (RenderCORE unitBackend regs0 vram2 () 2) = true :=
  ⟨by unfold UnsupportedConfig; decide, by decide⟩

/-- C8, witness: both halves of the amended statement applied to concrete
renders under the all-zero (unsupported) register file. -/
theorem render_abort_only_config_witness :
    (RenderError.ConfigurationUnsupported = .ConfigurationUnsupported ∧
      UnsupportedConfig regs0) ∧
    ((Except.error RenderError.ConfigurationUnsupported : Except RenderError (Unit × Vram)) =
      .error .ConfigurationUnsupported) :=
  ⟨(render_abort_only_config unitBackend regs0 vram1 () 2).1 .ConfigurationUnsupported rfl,
   (render_abort_only_config unitBackend regs0 vram0 () 2).2
     ⟨0, 0x80000000, 0x80000000, 0x80000000, 0x80000000, 0x80000000⟩ ()
     [PassEvent.paramTags .op] (.error .ConfigurationUnsupported)
     (by unfold UnsupportedConfig; decide) (by decide) rfl⟩

/-! ### C1 — termination of the region-array walk -/

/-- Processing a clean entry (all lists empty, `no_writeout` set) always
completes: VRAM is untouched and the only pass event is the unconditional
opaque tag resolution. -/
theorem processEntry_clean {σ : Type} (B : TileBackend σ) (regs : RegFile)
    (fuel : Nat) (vram : Vram) (st : σ) (e : RegionArrayEntry)
    (h : CleanEntry e) :
    ∃ st', processEntry B regs fuel vram st e =
      ([PassEvent.paramTags .op], some (.ok (st', vram))) := by
  obtain ⟨h1, h2, h3, h4⟩ := h
  refine ⟨B.renderParamTags .op (if ctrl_z_keep e.control = 0 then
      B.clearBuffers (ISP_BACKGND_T_full regs) (ISP_BACKGND_D_bits regs) (B.clearFpuCache st)
      else B.clearParamStatus (B.clearFpuCache st)), ?_⟩
  simp only [processEntry, h1, h2, h3, h4]
  norm_num

/-- One unfolding step of the region-array loop. -/
theorem RenderCOREloop_succ {σ : Type} (B : TileBackend σ) (regs : RegFile)
    (fuel : Nat) (vram : Vram) (st : σ) (base : Nat) :
    RenderCOREloop B regs (fuel + 1) vram st base =
      (match processEntry B regs fuel vram st (ReadRegionArrayEntry regs vram base).1 with
       | (_, none) => none
       | (_, some (.error err)) => some (.error err)
       | (_, some (.ok (st', vram'))) =>
         if ctrl_last_region (ReadRegionArrayEntry regs vram base).1.control = 0 then
           RenderCOREloop B regs fuel vram' st' (base + (ReadRegionArrayEntry regs vram base).2)
         else some (.ok (st', vram'))) := rfl

/-- If the loop completes within any fuel bound over an array of clean
entries, some entry of the unbounded walk carries `last_region`. -/
theorem renderCOREloop_some_flag {σ : Type} (B : TileBackend σ) (regs : RegFile)
    (vram : Vram)
    (hclean : ∀ k, (∀ j, j < k → ctrl_last_region (regionEntryAt regs vram j).control = 0) →
      CleanEntry (regionEntryAt regs vram k)) :
    ∀ fuel i st r,
      RenderCOREloop B regs fuel vram st (REGION_BASE regs + i * regionStep regs) = some r →
      ∃ k, ctrl_last_region (regionEntryAt regs vram k).control = 1 := by
  intro fuel
  induction fuel with
  | zero => intro i st r h; exact absurd h (by simp [RenderCOREloop])
  | succ n ih =>
    intro i st r h
    by_cases hflag : ∃ k, ctrl_last_region (regionEntryAt regs vram k).control = 1
    · exact hflag
    · push_neg at hflag
      have hz : ∀ j, ctrl_last_region (regionEntryAt regs vram j).control = 0 := by
        intro j
        have h1 := ctrl_last_region_lt (regionEntryAt regs vram j).control
        have h2 := hflag j
        omega
      obtain ⟨st', hpe⟩ := processEntry_clean B regs n vram st (regionEntryAt regs vram i)
        (hclean i (fun j _ => hz j))
      have hre : (ReadRegionArrayEntry regs vram (REGION_BASE regs + i * regionStep regs)).1 =
          regionEntryAt regs vram i := rfl
      simp only [RenderCOREloop] at h
      rw [hre, hpe] at h
      simp only [hz i, if_pos, readRegionArrayEntry_snd] at h
      rw [show REGION_BASE regs + i * regionStep regs + regionStep regs =
            REGION_BASE regs + (i + 1) * regionStep regs by ring] at h
      exact ih (i + 1) st' r h

/-- If the entry `n` steps ahead carries `last_region` and the entries before
it are clean and flagless, fuel `n + 1` completes the loop. -/
theorem renderCOREloop_flag_halts {σ : Type} (B : TileBackend σ) (regs : RegFile)
    (vram : Vram)
    (hclean : ∀ k, (∀ j, j < k → ctrl_last_region (regionEntryAt regs vram j).control = 0) →
      CleanEntry (regionEntryAt regs vram k)) :
    ∀ n i st, ctrl_last_region (regionEntryAt regs vram (i + n)).control = 1 →
      (∀ j, j < i + n → ctrl_last_region (regionEntryAt regs vram j).control = 0) →
      ∃ r, RenderCOREloop B regs (n + 1) vram st (REGION_BASE regs + i * regionStep regs) = some r := by
  intro n
  induction n with
  | zero =>
    intro i st hf hz
    obtain ⟨st', hpe⟩ := processEntry_clean B regs 0 vram st (regionEntryAt regs vram i)
      (hclean i (fun j hj => hz j (by omega)))
    refine ⟨.ok (st', vram), ?_⟩
    have hre : (ReadRegionArrayEntry regs vram (REGION_BASE regs + i * regionStep regs)).1 =
        regionEntryAt regs vram i := rfl
    simp only [RenderCOREloop]
    rw [hre, hpe]
    have hf0 : ctrl_last_region (regionEntryAt regs vram i).control = 1 := by
      simpa using hf
    simp [hf0]
  | succ m ih =>
    intro i st hf hz
    have hzi : ctrl_last_region (regionEntryAt regs vram i).control = 0 := hz i (by omega)
    obtain ⟨st', hpe⟩ := processEntry_clean B regs (m + 1) vram st (regionEntryAt regs vram i)
      (hclean i (fun j hj => hz j (by omega)))
    obtain ⟨r, hr⟩ := ih (i + 1) st'
      (by rwa [show i + 1 + m = i + (m + 1) by ring])
      (fun j hj => hz j (by omega))
    refine ⟨r, ?_⟩
    have hre : (ReadRegionArrayEntry regs vram (REGION_BASE regs + i * regionStep regs)).1 =
        regionEntryAt regs vram i := rfl
    rw [RenderCOREloop_succ, hre, hpe]
    simp only [hzi, if_pos, readRegionArrayEntry_snd]
    rw [show REGION_BASE regs + i * regionStep regs + regionStep regs =
          REGION_BASE regs + (i + 1) * regionStep regs by ring]
    exact hr

/-- C1, amended: the `do ... while (!entry.control.last_region)` loop of
`RenderCORE` imposes no 1024-entry cap and returns no `MalformedList` error;
over a region array of clean entries (all lists empty, `no_writeout` set —
at least up to the first flag), the render halts if and only if some entry of
the unbounded walk carries `last_region = 1`; with no such entry the C loop
never exits (the model completes within no fuel bound). -/
theorem renderCore_halts_iff {σ : Type} (B : TileBackend σ) (regs : RegFile)
    (vram : Vram) (st : σ)
    (hclean : ∀ k, (∀ j, j < k → ctrl_last_region (regionEntryAt regs vram j).control = 0) →
      CleanEntry (regionEntryAt regs vram k)) :
    (∃ fuel r, RenderCORE B regs vram st fuel = some r) ↔
    (∃ k, ctrl_last_region (regionEntryAt regs vram k).control = 1) := by
  constructor
  · rintro ⟨fuel, r, h⟩
    have h0 : RenderCOREloop B regs fuel vram st (REGION_BASE regs + 0 * regionStep regs) = some r := by
      rw [show REGION_BASE regs + 0 * regionStep regs = REGION_BASE regs by ring]
      exact h
    exact renderCOREloop_some_flag B regs vram hclean fuel 0 st r h0
  · rintro ⟨k, hk⟩
    have hex : ∃ k, ctrl_last_region (regionEntryAt regs vram k).control = 1 := ⟨k, hk⟩
    have hk0 : ctrl_last_region (regionEntryAt regs vram (Nat.find hex)).control = 1 :=
      Nat.find_spec hex
    have hz : ∀ j, j < Nat.find hex →
        ctrl_last_region (regionEntryAt regs vram j).control = 0 := by
      intro j hj
      have h1 := Nat.find_min hex hj
      have h2 := ctrl_last_region_lt (regionEntryAt regs vram j).control
      omega
    obtain ⟨r, hr⟩ := renderCOREloop_flag_halts B regs vram hclean (Nat.find hex) 0 st
      (by simpa using hk0) (by simpa using hz)
    refine ⟨Nat.find hex + 1, r, ?_⟩
    rw [RenderCORE, show REGION_BASE regs = REGION_BASE regs + 0 * regionStep regs by ring]
    exact hr

set_option maxRecDepth 100000 in
set_option maxHeartbeats 2000000 in
/-- C1, counterexample to the 1024-entry cap and the `MalformedList` error:
a region array whose first 1024 entries all lack `last_region` still renders
to completion (with enough fuel, here 1026 for the flag at entry 1024) and
returns a successful frame, not an error — the loop just keeps walking. -/
theorem render_no_1024_bound :
    resultOk (RenderCORE unitBackend regs0 vramCE () 1026) = true ∧
    (List.range 1024).all
      (fun k => ctrl_last_region (regionEntryAt regs0 vramCE k).control == 0) = true := by
  constructor
  · rfl
  · rfl

/-- C1, witness: the amended halting criterion applied to a one-entry region
array whose entry is clean and flagged `last_region`. -/
theorem renderCore_halts_iff_witness :
    ∃ k, ctrl_last_region (regionEntryAt regs0 vram2 k).control = 1 :=
  (renderCore_halts_iff unitBackend regs0 vram2 ()
    (fun k h => match k with
      | 0 => by unfold CleanEntry; decide
      | k + 1 => absurd (h 0 (Nat.succ_pos k)) (by decide))).mp
    ⟨2, .ok ((), vram2), rfl⟩

set_option maxRecDepth 10000 in
/-- C9, counterexample to full containment: an RGB565 writeback whose
start-of-field register is the odd address `0x7FFFFE + 1 = 0x7FFFFF` maps its
first pixel store to the last byte of VRAM, and the store's second byte lands
at `0x800000` — one past the 8 MiB array (a heap overflow in the C code, not
a masked access). -/
theorem vram_write_spills_out :
    (match RenderCORE whiteBackend regs9 vram1 () 2 with
     | some (.ok (_, v)) => v 0x800000
     | _ => 0) = 0xFF ∧
    vram1 0x800000 = 0 ∧ VRAM_SIZE ≤ 0x800000 := by
  refine ⟨by rfl, by decide, by decide⟩

/-- C10, witness: the opaque tag-resolution event recorded for an entry whose
opaque list pointer carries the `empty` flag. -/
theorem opaque_tags_always_witness :
    PassEvent.paramTags .op ∈
      (processEntry unitBackend regs0 1 vram0 ()
        ⟨0, 0x80000000, 0x80000000, 0x80000000, 0x80000000, 0x80000000⟩).1 :=
  opaque_tags_always unitBackend regs0 vram0 () 1
    ⟨0, 0x80000000, 0x80000000, 0x80000000, 0x80000000, 0x80000000⟩ (by decide)
